import Mathlib

/-!
Shallow embedding of `roblox-packagelink-updater` (src/src/main.rs and its
response modules) for checking the natural-language specification.

The scene codec (`rbx_binary`, `rbx_dom_weak`) is modelled by an explicit
graph type `WeakDom` together with the three operations the program uses on
it (`transfer`, `destroy`, root children); network and file I/O are modelled
by oracle functions gathered in an `Env` record, so every pipeline stage is
a pure function of its inputs and the oracles.
-/

namespace RPU

/-- A referent: the opaque per-graph identity of a node (`rbx_types::Ref`).
`0` plays the role of `Ref::none()` (the nil referent, parent of a root). -/
abbrev Ref := Nat

/-- Raw byte payloads (file/network bodies). -/
abbrev Bytes := List Nat

/-- The slice of `rbx_types::Variant` the program inspects: a `ContentId`
property value, or any other variant (only matched as "not a ContentId"). -/
inductive Variant where
  | contentId (s : String)
  | other (tag : String)
deriving DecidableEq, Repr

/-- One instance of a `rbx_dom_weak` DOM: class name, property map,
parent referent (`0` for a root) and ordered children referents. -/
structure Inst where
  className : String
  props : List (String × Variant)
  parent : Ref
  children : List Ref
deriving DecidableEq, Repr

/-- A `rbx_dom_weak::WeakDom`: a distinguished root referent plus an
association list from referents to instances. -/
structure WeakDom where
  rootRef : Ref
  insts : List (Ref × Inst)
deriving DecidableEq, Repr

/-- First-match association-list lookup (used for DOM instances, the byte
cache, and the local file store). -/
def assocLookup {α β : Type} [DecidableEq α] : List (α × β) → α → Option β
  | [], _ => none
  | (k, v) :: rest, a => if k = a then some v else assocLookup rest a

/-- `WeakDom::get_by_ref`. -/
def WeakDom.getByRef (d : WeakDom) (r : Ref) : Option Inst :=
  assocLookup d.insts r

/-- Preorder listing of the referents of the subtrees rooted at the given
referents. The fuel argument (always instantiated with more fuel than the
graph has nodes) makes the recursion structural. -/
def subtreeList (insts : List (Ref × Inst)) : Nat → List Ref → List Ref
  | 0, _ => []
  | _ + 1, [] => []
  | fuel + 1, r :: rs =>
    (match assocLookup insts r with
      | none => []
      | some i => r :: subtreeList insts fuel i.children)
    ++ subtreeList insts fuel rs

/-- Detach a node from its parent: remove `r` from the children list of the
node that `r` records as its parent. -/
def unlinkChild (insts : List (Ref × Inst)) (r : Ref) : List (Ref × Inst) :=
  match assocLookup insts r with
  | none => insts
  | some i =>
    insts.map fun q =>
      if q.1 = i.parent then
        (q.1, { q.2 with children := q.2.children.filter (fun c => decide (c ≠ r)) })
      else q

/-- `WeakDom::transfer(self, r, dest, dest_parent)`: move the subtree rooted
at `r` out of `self` (unlinking it from its old parent) and into `dest`,
re-parenting the subtree root under `dest_parent` and appending `r` to
`dest_parent`'s children. Referents are preserved. Returns the updated
`(self, dest)` pair; `none` models the library's documented panics, raised
when `r` does not refer to an instance of `self` or `dest_parent` does not
refer to an instance of `dest`. -/
def WeakDom.transfer (src : WeakDom) (r : Ref) (dst : WeakDom) (dstParent : Ref) :
    Option (WeakDom × WeakDom) :=
  match assocLookup src.insts r, assocLookup dst.insts dstParent with
  | some _, some _ =>
    let refs := subtreeList src.insts (src.insts.length + 1) [r]
    let moved := (src.insts.filter fun q => decide (q.1 ∈ refs)).map fun q =>
      if q.1 = r then (q.1, { q.2 with parent := dstParent }) else q
    let srcInsts := (unlinkChild src.insts r).filter fun q => decide (q.1 ∉ refs)
    let dstInsts :=
      (dst.insts.map fun q =>
        if q.1 = dstParent then (q.1, { q.2 with children := q.2.children ++ [r] }) else q)
      ++ moved
    some ({ src with insts := srcInsts }, { dst with insts := dstInsts })
  | _, _ => none

/-- `WeakDom::destroy(r)`: unlink `r` from its parent and drop the whole
subtree rooted at `r` from the graph. `none` models the library's documented
panics, raised when `r` is the root or does not refer to an instance of the
DOM. -/
def WeakDom.destroy (d : WeakDom) (r : Ref) : Option WeakDom :=
  if r = d.rootRef then none
  else
    match assocLookup d.insts r with
    | none => none
    | some _ =>
      let refs := subtreeList d.insts (d.insts.length + 1) [r]
      some { d with insts := (unlinkChild d.insts r).filter fun q => decide (q.1 ∉ refs) }

/-- `dom.root().children()`: the children list of the synthetic root node. -/
def WeakDom.rootChildren (d : WeakDom) : List Ref :=
  match assocLookup d.insts d.rootRef with
  | some i => i.children
  | none => []

/-- Preorder traversal of all referents of the DOM (`WeakDom::descendants`,
root included). -/
def WeakDom.descendantRefs (d : WeakDom) : List Ref :=
  subtreeList d.insts (d.insts.length + 1) [d.rootRef]

/-! ## Response types (src/src/universe_places_response.rs, asset_response.rs) -/

/-- `universe_places_response::Place`. -/
structure Place where
  id : Nat
  universeId : Nat
  name : String
  description : String
deriving DecidableEq, Repr

/-- `universe_places_response::UniversePlacesResponse`. -/
structure UniversePlacesResponse where
  previousPageCursor : Option String
  nextPageCursor : Option String
  data : List Place
deriving DecidableEq, Repr

/-- `asset_response::AssetMetadata`. -/
structure AssetMetadata where
  metadataType : Nat
  value : String
deriving DecidableEq, Repr

/-- `asset_response::Location`. -/
structure Location where
  assetFormat : String
  location : String
  assetMetadatas : List AssetMetadata
deriving DecidableEq, Repr

/-- `asset_response::AssetResponse`. -/
structure AssetResponse where
  locations : List Location
  requestId : String
  isArchived : Bool
  assetTypeId : Nat
  isRecordable : Bool
deriving DecidableEq, Repr

/-! ## External world (oracles)

Network transport, gzip decompression, the scene codec and the local file
system are external collaborators; each is modelled as a function supplied
in an `Env` record. The pipeline composes them exactly as the source does. -/

/-- Outcome of a `client.get(url).send().await` / `.json::<T>().await` pair:
the transport step or the JSON parse step can fail with distinct errors. -/
inductive GetJsonErr where
  | send (e : String)
  | parse (e : String)
deriving DecidableEq, Repr

instance exceptDecEq {ε α : Type} [DecidableEq ε] [DecidableEq α] :
    DecidableEq (Except ε α)
  | .ok a, .ok b =>
    if h : a = b then .isTrue (by rw [h]) else .isFalse (by simp [h])
  | .ok _, .error _ => .isFalse (by simp)
  | .error _, .ok _ => .isFalse (by simp)
  | .error e, .error f =>
    if h : e = f then .isTrue (by rw [h]) else .isFalse (by simp [h])

/-- A binary HTTP response: whether the `Content-Encoding: gzip` header is
present, and the result of reading the body bytes. -/
structure Resp where
  gzipHeader : Bool
  bodyResult : Except String Bytes
deriving DecidableEq, Repr

/-- The oracle record for all external effects. -/
structure Env where
  /-- Listing endpoint: `develop.roblox.com/v1/universes/{id}/places`,
  sent and parsed (`?` on both in `main`, so one combined error). -/
  universePlaces : Nat → Except String UniversePlacesResponse
  /-- `assetdelivery.roblox.com/v2/asset/?id={id}` sent and JSON-parsed,
  keyed by the id string (used for both places and packages). -/
  assetMeta : String → Except GetJsonErr AssetResponse
  /-- `client.get(cdn).send().await` against a CDN location URL. -/
  getCdn : String → Except String Resp
  /-- `GzDecoder::read_to_end`. -/
  gunzip : Bytes → Except String Bytes
  /-- `rbx_binary::from_reader`. -/
  decodeDom : Bytes → Except String WeakDom
  /-- `rbx_binary::to_writer(buffer, dom, dom.root().children())`. -/
  encodeDom : WeakDom → Except String Bytes
  /-- `tokio::fs::create_dir_all` + `tokio::fs::write` for one place file. -/
  writeFile : Nat → Bytes → Except String Unit
  /-- `POST apis.roblox.com/universes/v1/{u}/places/{id}/versions`:
  `.ok status` is a response with that HTTP status, `.error` a transport
  failure. -/
  publish : Nat → Nat → Bytes → Except String Nat

/-- `decompress_if_needed` (src/src/main.rs lines 28-46): read the body
bytes, then gunzip them only when the gzip content-encoding header is set. -/
def decompressIfNeeded (env : Env) (resp : Resp) : Except String Bytes :=
  match resp.bodyResult with
  | .error e => .error e
  | .ok bodyBytes =>
    if resp.gzipHeader then env.gunzip bodyBytes else .ok bodyBytes

/-- The `for location in ... if format == "source" { break }` loops
(lines 151-157 and 330-336): first location whose format is `"source"`. -/
def findCdn (locs : List Location) : Option String :=
  match locs.find? (fun loc => loc.assetFormat == "source") with
  | some loc => some loc.location
  | none => none

/-! ## Scene Collector (`collect_places_and_package_ids`, lines 68-278) -/

/-- One unit of transplant work (`struct ToWork`, lines 48-53). -/
structure ToWork where
  packageIdNumbers : String
  packageLink : Ref
  packageLinkGroup : Ref
  packageLinkParent : Ref
deriving DecidableEq, Repr

/-- `struct PlaceData` (lines 55-60). -/
structure PlaceData where
  id : Nat
  name : String
  dom : WeakDom
  toWork : List ToWork
deriving DecidableEq, Repr

/-- `struct SavedPlace` (lines 62-66). -/
structure SavedPlace where
  id : Nat
  name : String
  buffer : Bytes
deriving DecidableEq, Repr

/-- Boolean prefix test on character lists (stands in for
`str::strip_prefix`, whose string-level library version does not reduce). -/
def charsPre : List Char → List Char → Bool
  | [], _ => true
  | _ :: _, [] => false
  | a :: as, b :: bs => if a = b then charsPre as bs else false

/-- `package_id.as_str().strip_prefix("rbxassetid://")` (line 238). -/
def dropAssetScheme (s : String) : Option String :=
  if charsPre "rbxassetid://".data s.data then some (s.drop 13) else none

/-! Failure-record texts, named so that theorems can talk about the exact
record a stage emits. Each mirrors one `format!` in src/src/main.rs (the
source quotes the raw package id in `msgLinkBadFormat`; the quotes are
dropped here). -/

def msgPlaceMetaSend (pname : String) (pid : Nat) (e : String) : String :=
  s!"Failed to fetch asset metadata for place {pname} {pid}: {e}"

def msgPlaceMetaParse (pname : String) (pid : Nat) (e : String) : String :=
  s!"Failed to parse asset metadata for place {pname} {pid}: {e}"

def msgPlaceNoCdn (pname : String) (pid : Nat) : String :=
  s!"CDN source not found for place {pname} {pid}"

def msgPlaceCdnGet (cdn pname : String) (pid : Nat) (e : String) : String :=
  s!"Failed to GET place CDN {cdn} for {pname} {pid}: {e}"

def msgPlaceDecompress (pname : String) (pid : Nat) (e : String) : String :=
  s!"Failed to decompress place {pname} {pid}: {e}"

def msgPlaceDecode (pname : String) (pid : Nat) (e : String) : String :=
  s!"Failed to parse RBX binary for place {pname} {pid}: {e}"

def msgLinkNoPackageId (pname : String) (pid : Nat) : String :=
  s!"PackageLink without valid PackageId in place {pname} {pid}"

def msgLinkBadFormat (rawId pname : String) (pid : Nat) : String :=
  s!"PackageId had unexpected format {rawId} in place {pname} {pid}"

def msgPkgMetaParse (pid e : String) : String :=
  s!"Failed parse package asset metadata {pid}: {e}"

def msgPkgMetaSend (pid e : String) : String :=
  s!"Failed GET package asset metadata {pid}: {e}"

def msgPkgNoCdn (pid : String) : String :=
  s!"Failed to find CDN for package {pid}"

def msgPkgCdnGet (cdn pid e : String) : String :=
  s!"Failed GET package CDN {cdn} for {pid}: {e}"

def msgPkgDecompress (pid e : String) : String :=
  s!"Failed decompress package {pid}: {e}"

def msgPkgCollect (pid : String) : String :=
  s!"Package {pid} failed to fetch (see earlier messages). Leaving PackageLink(s) untouched."

def msgNoFetchedAsset (wid pname : String) (pid : Nat) : String :=
  s!"No fetched asset for package {wid} referenced in place {pname} {pid} - leaving untouched."

def msgPkgDomParse (wid e : String) : String :=
  s!"Failed to parse package DOM for package {wid}: {e}"

def msgPublishHttp (sname : String) (sid status : Nat) : String :=
  s!"Failed to publish place {sname} {sid}: HTTP {status}"

def msgPublishErr (sname : String) (sid : Nat) (e : String) : String :=
  s!"Failed to publish place {sname} {sid}: {e}"

/-- Outcome of inspecting one instance during the PackageLink scan. -/
inductive ScanOut where
  | notLink
  | bad (msg : String)
  | work (w : ToWork)
deriving DecidableEq, Repr

/-- The body of the scan loop (lines 222-263) for a single instance.
`.error` models the `unwrap()` panic on line 254 (the PackageLink's parent
referent does not resolve, which happens exactly when the PackageLink is
the DOM root so its parent is the nil referent). -/
def scanInstance (dom : WeakDom) (pname : String) (pid : Nat) (r : Ref) (i : Inst) :
    Except String ScanOut :=
  if i.className = "PackageLink" then
    match assocLookup i.props "PackageId" with
    | some (Variant.contentId rawId) =>
      match dropAssetScheme rawId with
      | some pidNums =>
        let group := i.parent
        match dom.getByRef group with
        | some gi => .ok (.work ⟨pidNums, r, group, gi.parent⟩)
        | none => .error "called Option::unwrap() on a None value"
      | none =>
        .ok (.bad (msgLinkBadFormat rawId pname pid))
    | _ => .ok (.bad (msgLinkNoPackageId pname pid))
  else .ok .notLink

/-- The scan loop over all descendants of a decoded place DOM. -/
def scanLoop (dom : WeakDom) (pname : String) (pid : Nat) :
    List Ref → List ToWork × List String → Except String (List ToWork × List String)
  | [], acc => .ok acc
  | r :: rs, (ws, fs) =>
    match dom.getByRef r with
    | none => scanLoop dom pname pid rs (ws, fs)
    | some i =>
      match scanInstance dom pname pid r i with
      | .error e => .error e
      | .ok .notLink => scanLoop dom pname pid rs (ws, fs)
      | .ok (.bad m) => scanLoop dom pname pid rs (ws, fs ++ [m])
      | .ok (.work w) => scanLoop dom pname pid rs (ws ++ [w], fs)

/-- Processing of a single listed place (lines 105-273): metadata fetch and
parse, CDN resolution, CDN fetch, decompression, decode, PackageLink scan.
`.ok (none, msgs)` is a skipped place (each skip emits exactly the failure
records `msgs`); `.ok (some pd, msgs)` a collected place with its per-link
failure records; `.error` the scan panic. -/
def collectOnePlace (env : Env) (place : Place) :
    Except String (Option PlaceData × List String) :=
  let pname := place.name
  let pid := place.id
  match env.assetMeta (toString pid) with
  | .error (.send e) =>
    .ok (none, [msgPlaceMetaSend pname pid e])
  | .error (.parse e) =>
    .ok (none, [msgPlaceMetaParse pname pid e])
  | .ok meta =>
    match findCdn meta.locations with
    | none => .ok (none, [msgPlaceNoCdn pname pid])
    | some cdn =>
      match env.getCdn cdn with
      | .error e =>
        .ok (none, [msgPlaceCdnGet cdn pname pid e])
      | .ok resp =>
        match decompressIfNeeded env resp with
        | .error e => .ok (none, [msgPlaceDecompress pname pid e])
        | .ok placeBytes =>
          match env.decodeDom placeBytes with
          | .error e =>
            .ok (none, [msgPlaceDecode pname pid e])
          | .ok dom =>
            match scanLoop dom pname pid dom.descendantRefs ([], []) with
            | .error e => .error e
            | .ok (ws, fs) => .ok (some ⟨pid, pname, dom, ws⟩, fs)

/-- The sequential `for place in response.data()` loop. -/
def collectLoop (env : Env) :
    List Place → List PlaceData × List String → Except String (List PlaceData × List String)
  | [], acc => .ok acc
  | pl :: rest, (pds, fs) =>
    match collectOnePlace env pl with
    | .error e => .error e
    | .ok (none, f) => collectLoop env rest (pds, fs ++ f)
    | .ok (some pd, f) => collectLoop env rest (pds ++ [pd], fs ++ f)

/-- `collect_places_and_package_ids` (lines 68-278). The `?` on the listing
request (lines 79-86) makes a listing failure abort the run. -/
def collectPlacesAndPackageIds (env : Env) (universeId : Nat) :
    Except String (List PlaceData × List String) :=
  match env.universePlaces universeId with
  | .error e => .error e
  | .ok resp => collectLoop env resp.data ([], [])

/-- The `limit=100` query parameter of the listing request (line 81). -/
def placesListLimit : Nat := 100

/-- Modelled from the spec: the paginated scene-collection listing endpoint
(spec section 6, "a paginated listing endpoint returning scene identifiers
and display names") is not part of src/; one page holds at most `limit`
scenes, and a non-null `nextPageCursor` signals further pages. The source
requests a single page with `limit=100` and never follows the cursor. -/
def listingPage (allScenes : List Place) (limit : Nat) : UniversePlacesResponse :=
  { previousPageCursor := none
    nextPageCursor := if allScenes.length ≤ limit then none else some "cursor"
    data := allScenes.take limit }

/-! ## Content Fetcher (`fetch_package_assets`, lines 280-402) -/

/-- Network actions of the Content Fetcher, for counting lookups/fetches. -/
inductive FetchEvent where
  | metaLookup (pid : String)
  | cdnGet (pid : String) (url : String)
deriving DecidableEq, Repr

/-- The per-package async task (lines 291-377): returns `Ok (id, bytes)` or
`Err (id, reason-tag)`, together with the failure records this task sent and
the network actions it performed. -/
def fetchOnePackage (env : Env) (pid : String) :
    Except (String × String) (String × Bytes) × List String × List FetchEvent :=
  match env.assetMeta pid with
  | .error (.parse e) =>
    (.error (pid, "parse_meta_failed"),
      [msgPkgMetaParse pid e], [.metaLookup pid])
  | .error (.send e) =>
    (.error (pid, "meta_failed"),
      [msgPkgMetaSend pid e], [.metaLookup pid])
  | .ok meta =>
    match findCdn meta.locations with
    | none =>
      (.error (pid, "cdn_not_found"),
        [msgPkgNoCdn pid], [.metaLookup pid])
    | some cdn =>
      match env.getCdn cdn with
      | .error e =>
        (.error (pid, "cdn_get_failed"),
          [msgPkgCdnGet cdn pid e],
          [.metaLookup pid, .cdnGet pid cdn])
      | .ok resp =>
        match decompressIfNeeded env resp with
        | .error e =>
          (.error (pid, "decompress_failed"),
            [msgPkgDecompress pid e],
            [.metaLookup pid, .cdnGet pid cdn])
        | .ok bytes =>
          (.ok (pid, bytes), [], [.metaLookup pid, .cdnGet pid cdn])

/-- The collection loop over task results (lines 384-399): successes are
inserted into the byte cache, failures emit one more failure record. -/
def fetchCollectLoop :
    List (Except (String × String) (String × Bytes)) →
    List (String × Bytes) → List String → List (String × Bytes) × List String
  | [], m, f => (m, f)
  | .ok (pid, bytes) :: rest, m, f => fetchCollectLoop rest (m ++ [(pid, bytes)]) f
  | .error (pid, _) :: rest, m, f =>
    fetchCollectLoop rest m
      (f ++ [msgPkgCollect pid])

/-- `fetch_package_assets` (lines 280-402): run the per-package tasks (the
source runs them under `buffer_unordered(3)`, whose completion order is
unspecified; the model lists results in input order, and every claim proved
about this stage is order-insensitive), then collect the results. Returns
the byte cache, all failure records, and the network actions. -/
def fetchPackageAssets (env : Env) (ids : List String) :
    List (String × Bytes) × List String × List FetchEvent :=
  let results := ids.map (fetchOnePackage env)
  let taskFails := (results.map fun r => r.2.1).flatten
  let events := (results.map fun r => r.2.2).flatten
  let collected := fetchCollectLoop (results.map fun r => r.1) [] []
  (collected.1, taskFails ++ collected.2, events)

/-- The deduplicated package-id set built in `main` (lines 637-651) from all
Work Items of all places (a `HashSet`, so order is inessential; the model
uses `dedup`). -/
def uniquePackages (placesData : List PlaceData) : List String :=
  ((placesData.map fun p => p.toWork.map fun w => w.packageIdNumbers).flatten).dedup

/-! ## Graph Transplanter and save stage
(`process_places_and_save`, lines 404-486) -/

/-- How a run of the save stage can end prematurely: a Rust `panic!` (which
aborts the process) or an `Err` propagated by `?` out of
`process_places_and_save` (which aborts the run in `main`). -/
inductive Abort where
  | panic (msg : String)
  | err (msg : String)
deriving DecidableEq, Repr

/-- The body of the per-Work-Item loop (lines 422-458). On a byte-cache miss
or a package decode failure the item is skipped with one failure record; on
a hit, `package_dom.root().children()[0]` (line 437) is taken — this indexing
panics when the fresh package DOM's root has no children — and then the three
graph-surgery steps run: transfer the PackageLink into the package DOM under
its root, destroy the wrapper group in the scene DOM, transfer the package
root into the scene DOM under the group's parent. Each of the three steps
panics (aborting the process) when a referent it needs is no longer in its
graph — e.g. a nested PackageLink whose wrapper subtree a previous Work Item
already destroyed. -/
def processWork (env : Env) (cache : List (String × Bytes)) (pname : String) (pid : Nat)
    (dom : WeakDom) (fails : List String) (reps : Nat) (w : ToWork) :
    Except Abort (WeakDom × List String × Nat) :=
  match assocLookup cache w.packageIdNumbers with
  | none =>
    .ok (dom, fails ++ [msgNoFetchedAsset w.packageIdNumbers pname pid], reps)
  | some bytes =>
    match env.decodeDom bytes with
    | .error e =>
      .ok (dom, fails ++ [msgPkgDomParse w.packageIdNumbers e], reps)
    | .ok packageDom =>
      match packageDom.rootChildren with
      | [] => .error (.panic "index out of bounds: the len is 0 but the index is 0")
      | packageRoot :: _ =>
        match dom.transfer w.packageLink packageDom packageRoot with
        | none => .error (.panic "cannot transfer an instance that is not in the DOM")
        | some step1 =>
          match step1.1.destroy w.packageLinkGroup with
          | none => .error (.panic "cannot destroy an instance that is not in the DOM")
          | some dom2 =>
            match step1.2.transfer packageRoot dom2 w.packageLinkParent with
            | none =>
              .error (.panic "cannot transfer an instance that is not in the DOM")
            | some step3 => .ok (step3.2, fails, reps + 1)

/-- The `for work in place.to_work.iter()` loop. -/
def processWorkLoop (env : Env) (cache : List (String × Bytes)) (pname : String)
    (pid : Nat) :
    List ToWork → WeakDom → List String → Nat →
    Except Abort (WeakDom × List String × Nat)
  | [], dom, fs, reps => .ok (dom, fs, reps)
  | w :: rest, dom, fs, reps =>
    match processWork env cache pname pid dom fs reps w with
    | .error a => .error a
    | .ok (dom2, fs2, reps2) => processWorkLoop env cache pname pid rest dom2 fs2 reps2

/-- Local file store: place id to last written bytes. -/
abbrev Fs := List (Nat × Bytes)

/-- Overwriting write of one file into the local store. -/
def fsWrite (fs : Fs) (id : Nat) (b : Bytes) : Fs :=
  (fs.filter fun q => decide (q.1 ≠ id)) ++ [(id, b)]

/-- Observable pipeline actions, for ordering claims. -/
inductive Ev where
  | fileWrite (id : Nat)
  | publishAttempt (id : Nat) (ok : Bool)
deriving DecidableEq, Repr

/-- The `for mut place in places_data` loop of `process_places_and_save`:
per-item transplants, then serialization (`?` on line 466), then the local
file write (`?` on lines 470-472), then the push onto `saved_places`.
Serialization and write failures abort the whole stage via `?`; the
accumulated file store, failure records and events at the abort point are
returned alongside the outcome. -/
def processPlacesLoop (env : Env) (cache : List (String × Bytes)) :
    List PlaceData → List SavedPlace → Fs → List String → List Ev →
    Except Abort (List SavedPlace) × Fs × List String × List Ev
  | [], saved, fs, fails, evs => (.ok saved, fs, fails, evs)
  | pl :: rest, saved, fs, fails, evs =>
    match processWorkLoop env cache pl.name pl.id pl.toWork pl.dom fails 0 with
    | .error a => (.error a, fs, fails, evs)
    | .ok (dom2, fails2, _) =>
      match env.encodeDom dom2 with
      | .error e => (.error (.err e), fs, fails2, evs)
      | .ok buffer =>
        match env.writeFile pl.id buffer with
        | .error e => (.error (.err e), fs, fails2, evs)
        | .ok _ =>
          processPlacesLoop env cache rest (saved ++ [⟨pl.id, pl.name, buffer⟩])
            (fsWrite fs pl.id buffer) fails2 (evs ++ [.fileWrite pl.id])

/-- `process_places_and_save` (lines 404-486). -/
def processPlacesAndSave (env : Env) (placesData : List PlaceData)
    (cache : List (String × Bytes)) :
    Except Abort (List SavedPlace) × Fs × List String × List Ev :=
  processPlacesLoop env cache placesData [] [] [] []

/-! ## Publisher (`publish_saved_places`, lines 488-551) -/

/-- The per-place publish task (lines 500-536): a 2xx status is a success,
any other status or a transport error emits one failure record. -/
def publishOne (env : Env) (universeId : Nat) (saved : SavedPlace) :
    Except Nat Nat × List String × List Ev :=
  let sname := saved.name
  let sid := saved.id
  match env.publish universeId sid saved.buffer with
  | .ok status =>
    if 200 ≤ status ∧ status < 300 then
      (.ok sid, [], [.publishAttempt sid true])
    else
      (.error sid, [msgPublishHttp sname sid status],
        [.publishAttempt sid false])
  | .error e =>
    (.error sid, [msgPublishErr sname sid e],
      [.publishAttempt sid false])

/-- `publish_saved_places` (lines 488-551): run the per-place publish tasks
(under `buffer_unordered(3)` in the source; modelled in input order, with
only order-insensitive claims proved about it) and return the per-place
results, the failure records, and the publish events. The stage touches no
local file. -/
def publishSavedPlaces (env : Env) (universeId : Nat) (savedPlaces : List SavedPlace) :
    List (Except Nat Nat) × List String × List Ev :=
  let results := savedPlaces.map (publishOne env universeId)
  (results.map fun r => r.1,
    (results.map fun r => r.2.1).flatten,
    (results.map fun r => r.2.2).flatten)

/-- The save-then-publish tail of `main` (lines 661-730): the save stage
runs to completion (its `?` aborting on failure) before `publish_saved_places`
is called; the publish stage reads only the in-memory `saved_places` buffers
and never touches the file store. -/
def runSaveAndPublish (env : Env) (universeId : Nat) (placesData : List PlaceData)
    (cache : List (String × Bytes)) :
    Except Abort (List SavedPlace × List (Except Nat Nat)) × Fs × List String × List Ev :=
  match processPlacesAndSave env placesData cache with
  | (.error a, fs, fails, evs) => (.error a, fs, fails, evs)
  | (.ok saved, fs, fails, evs) =>
    let pub := publishSavedPlaces env universeId saved
    (.ok (saved, pub.1), fs, fails ++ pub.2.1, evs ++ pub.2.2)

/-! ## Bounded fan-out (`futures::stream::iter(..).buffer_unordered(3)`,
lines 378 and 538)

`buffer_unordered(3)` keeps at most 3 tasks in flight, immediately refills a
completed slot from the remaining stream, finishes tasks in an unspecified
order, and its `collect` completes only once every task has resolved. It is
modelled as a small-step scheduler: a `start` step admits a pending task
while fewer than `width` are in flight, a `finish` step resolves any
in-flight task (regardless of its outcome, so one task's failure neither
cancels nor delays the others). -/

/-- The fixed pool width passed to `buffer_unordered` at both call sites. -/
def bufferWidth : Nat := 3

/-- Scheduler state: tasks not yet started, tasks in flight, resolved
outcomes. -/
structure FanState (α β : Type) where
  pending : List α
  running : List α
  done : List β
deriving Repr

/-- One scheduler step. -/
inductive FanStep {α β : Type} (width : Nat) (run : α → β) :
    FanState α β → FanState α β → Prop where
  | start (a : α) (rest running done_ : _)
      (h : running.length < width) :
      FanStep width run ⟨a :: rest, running, done_⟩ ⟨rest, a :: running, done_⟩
  | finish (l r : List α) (a : α) (pending_ done_ : _) :
      FanStep width run ⟨pending_, l ++ a :: r, done_⟩
        ⟨pending_, l ++ r, run a :: done_⟩

/-- Initial scheduler state over a task list. -/
def fanInit {α β : Type} (tasks : List α) : FanState α β := ⟨tasks, [], []⟩

/-- Reachability from the initial state. -/
def FanReach {α β : Type} (width : Nat) (run : α → β) (tasks : List α)
    (s : FanState α β) : Prop :=
  Relation.ReflTransGen (FanStep width run) (fanInit tasks) s

/-- A state with no enabled step (the stage has completed). -/
def FanStuck {α β : Type} (width : Nat) (run : α → β) (s : FanState α β) : Prop :=
  ∀ t, ¬ FanStep width run s t

/-- Scheduler invariant: the in-flight bound, plus accounting of every
submitted task (resolved outcomes and the images of unresolved tasks form a
permutation of all task outcomes). -/
def FanInv {α β : Type} (width : Nat) (run : α → β) (tasks : List α)
    (s : FanState α β) : Prop :=
  s.running.length ≤ width ∧
    (s.done ++ (s.running ++ s.pending).map run).Perm (tasks.map run)

lemma fanInv_init {α β : Type} (width : Nat) (run : α → β) (tasks : List α) :
    FanInv width run tasks (fanInit tasks : FanState α β) := by
  constructor
  · simp [fanInit]
  · simp [fanInit]

lemma fanInv_step {α β : Type} {width : Nat} {run : α → β} {tasks : List α}
    {s t : FanState α β} (h : FanStep width run s t)
    (hi : FanInv width run tasks s) : FanInv width run tasks t := by
  obtain ⟨hb, hp⟩ := hi
  cases h with
  | start a rest running done_ hlt =>
    refine ⟨by simpa using hlt, ?_⟩
    refine List.Perm.trans ?_ hp
    refine List.Perm.append_left done_ (List.Perm.map run ?_)
    have hm : (running ++ a :: rest).Perm (a :: (running ++ rest)) :=
      List.perm_middle
    simpa using hm.symm
  | finish l r a pending_ done_ =>
    refine ⟨?_, ?_⟩
    · simp only [List.length_append, List.length_cons] at hb ⊢
      omega
    · refine List.Perm.trans ?_ hp
      have hA : ((l ++ a :: r) ++ pending_).map run
          |>.Perm (run a :: ((l ++ r) ++ pending_).map run) := by
        have hm0 : (l ++ a :: (r ++ pending_)).Perm (a :: (l ++ (r ++ pending_))) :=
          List.perm_middle
        have hm := hm0.map run
        simp only [List.map_append, List.map_cons, List.append_assoc] at hm ⊢
        exact hm
      have hB : (done_ ++ (run a :: ((l ++ r) ++ pending_).map run)).Perm
          (run a :: (done_ ++ ((l ++ r) ++ pending_).map run)) :=
        List.perm_middle
      have hC : (done_ ++ ((l ++ a :: r) ++ pending_).map run).Perm
          (run a :: (done_ ++ ((l ++ r) ++ pending_).map run)) :=
        (List.Perm.append_left done_ hA).trans hB
      simpa using hC.symm

lemma fanReach_inv {α β : Type} {width : Nat} {run : α → β} {tasks : List α}
    {s : FanState α β} (h : FanReach width run tasks s) :
    FanInv width run tasks s := by
  induction h with
  | refl => exact fanInv_init width run tasks
  | tail _ hstep ih => exact fanInv_step hstep ih

lemma fanStuck_iff {α β : Type} {width : Nat} {run : α → β}
    (hw : 0 < width) (s : FanState α β) :
    FanStuck width run s ↔ s.pending = [] ∧ s.running = [] := by
  obtain ⟨pend, runl, donel⟩ := s
  simp only [FanStuck]
  constructor
  · intro hst
    cases runl with
    | cons b br =>
      exact absurd
        (FanStep.finish [] br b pend donel :
          FanStep width run ⟨pend, [] ++ b :: br, donel⟩ ⟨pend, [] ++ br, run b :: donel⟩)
        (hst _)
    | nil =>
      cases pend with
      | nil => exact ⟨rfl, rfl⟩
      | cons a rest =>
        exact absurd
          (FanStep.start a rest [] donel (by simpa using hw) :
            FanStep width run ⟨a :: rest, [], donel⟩ ⟨rest, a :: [], donel⟩)
          (hst _)
  · rintro ⟨hp, hr⟩ t hstep
    subst hp
    subst hr
    have h2 : ∀ s u : FanState α β, FanStep width run s u →
        s.running = [] → s.pending = [] → False := by
      intro s u h
      cases h with
      | start a rest running done_ hlt =>
        intro _ hpe
        exact List.cons_ne_nil a rest hpe
      | finish l r a pending_ done_ =>
        intro hre _
        exact List.cons_ne_nil a r (List.append_eq_nil.mp hre).2
    exact h2 _ _ hstep rfl rfl

/-! ## Concrete fixtures used by witnesses and counterexamples -/

/-- A fully failing environment (every network call errors, codec refuses
everything harmless succeeds); fields are overridden per fixture. -/
def envOffline : Env where
  universePlaces := fun _ => .error "offline"
  assetMeta := fun _ => .error (.send "offline")
  getCdn := fun _ => .error "offline"
  gunzip := fun b => .ok b
  decodeDom := fun _ => .error "not a model file"
  encodeDom := fun _ => .ok []
  writeFile := fun _ _ => .ok ()
  publish := fun _ _ _ => .error "offline"

/-- Package DOM fixture: synthetic root → content root → content child. -/
def pkgW : WeakDom :=
  ⟨10, [(10, ⟨"DataModel", [], 0, [11]⟩), (11, ⟨"Model", [], 10, [12]⟩),
        (12, ⟨"Part", [], 11, []⟩)]⟩

/-! ## Claim C3 -/

/-- C3: for every Work Item whose content id is absent from the byte cache,
the Transplanter leaves the scene DOM of that Work Item completely
unmutated, emits exactly one Failure Record (the record naming the scene
name, scene id and content id), and the per-item loop continues with the
next Work Item of the same scene. -/
theorem c3_cache_miss_is_isolated
    (env : Env) (cache : List (String × Bytes)) (pname : String) (pid : Nat)
    (dom : WeakDom) (fails : List String) (reps : Nat) (w : ToWork)
    (rest : List ToWork)
    (h : assocLookup cache w.packageIdNumbers = none) :
    processWork env cache pname pid dom fails reps w =
      .ok (dom, fails ++ [msgNoFetchedAsset w.packageIdNumbers pname pid], reps) ∧
    processWorkLoop env cache pname pid (w :: rest) dom fails reps =
      processWorkLoop env cache pname pid rest dom
        (fails ++ [msgNoFetchedAsset w.packageIdNumbers pname pid]) reps := by
  have h1 : processWork env cache pname pid dom fails reps w =
      .ok (dom, fails ++ [msgNoFetchedAsset w.packageIdNumbers pname pid], reps) := by
    unfold processWork
    rw [h]
  refine ⟨h1, ?_⟩
  simp only [processWorkLoop]
  rw [h1]

/-- Scene DOM fixture: root → folder → wrapper model → PackageLink. -/
def sceneW : WeakDom :=
  ⟨1, [(1, ⟨"DataModel", [], 0, [2]⟩), (2, ⟨"Folder", [], 1, [3]⟩),
       (3, ⟨"Model", [], 2, [4]⟩),
       (4, ⟨"PackageLink", [("PackageId", Variant.contentId "rbxassetid://55")], 3, []⟩)]⟩

theorem c3_cache_miss_is_isolated_witness :
    assocLookup ([] : List (String × Bytes)) (ToWork.packageIdNumbers ⟨"55", 4, 3, 2⟩) = none ∧
    (processWork envOffline [] "Place" 7 sceneW [] 0 ⟨"55", 4, 3, 2⟩ =
        .ok (sceneW, [] ++ [msgNoFetchedAsset "55" "Place" 7], 0) ∧
      processWorkLoop envOffline [] "Place" 7 [⟨"55", 4, 3, 2⟩] sceneW [] 0 =
        processWorkLoop envOffline [] "Place" 7 [] sceneW
          ([] ++ [msgNoFetchedAsset "55" "Place" 7]) 0) :=
  ⟨rfl, c3_cache_miss_is_isolated envOffline [] "Place" 7 sceneW [] 0 ⟨"55", 4, 3, 2⟩ [] rfl⟩

/-! ## Claim C1

The spec says a fresh package decode whose root has no children is reported
as a structural failure and the Work Item skipped. The code instead indexes
`package_dom.root().children()[0]` (line 437) unconditionally, which panics
(aborting the whole process) on such a package: no Failure Record is
emitted, the scene is not saved, and every remaining Work Item and place is
dropped. The surrounding error handling (every other failure in the loop
sends a record and `continue`s) and the spec text make the intent clear, so
this is recorded as a bug in the code. -/

/-- A package whose decoded DOM has a childless synthetic root. -/
def emptyRootDom : WeakDom := ⟨1, [(1, ⟨"DataModel", [], 0, []⟩)]⟩

def envC1 : Env := { envOffline with decodeDom := fun _ => .ok emptyRootDom }

/-- C1 (bug witness): with content id `"55"` in the byte cache and its bytes
decoding to a childless-root DOM, the save stage aborts with the
index-out-of-bounds panic instead of reporting a structural Failure Record
and skipping the Work Item: the result carries no failure record at all and
no scene is saved. -/
theorem c1_empty_package_root_panics :
    processPlacesAndSave envC1 [⟨7, "Place", sceneW, [⟨"55", 4, 3, 2⟩]⟩]
        [("55", [0])] =
      (.error (.panic "index out of bounds: the len is 0 but the index is 0"),
        [], [], []) := by
  decide

/-! ## Claim C9 -/

/-- C9: for every run of the Content Fetcher and the Publisher stages (both
drive their per-item tasks through `buffer_unordered` with pool width
`bufferWidth = 3`): in every reachable scheduler state at most 3 tasks are
in flight; the stage can stop only when no task is pending or in flight
(one task's failure neither cancels nor delays the others — a step is
always available while work remains); and in any reachable completed state
the resolved outcomes are exactly the outcomes of all submitted tasks (as a
permutation), so completed count = submitted count. -/
theorem c9_fanout_bounded_no_fail_fast
    (env : Env) (u : Nat) (ids : List String) (saved : List SavedPlace)
    (sF : FanState String
      (Except (String × String) (String × Bytes) × List String × List FetchEvent))
    (sP : FanState SavedPlace (Except Nat Nat × List String × List Ev))
    (hF : FanReach bufferWidth (fetchOnePackage env) ids sF)
    (hP : FanReach bufferWidth (publishOne env u) saved sP) :
    (sF.running.length ≤ bufferWidth ∧ sP.running.length ≤ bufferWidth) ∧
    (FanStuck bufferWidth (fetchOnePackage env) sF ↔
      sF.pending = [] ∧ sF.running = []) ∧
    (FanStuck bufferWidth (publishOne env u) sP ↔
      sP.pending = [] ∧ sP.running = []) ∧
    (sF.pending = [] → sF.running = [] →
      sF.done.Perm (ids.map (fetchOnePackage env)) ∧ sF.done.length = ids.length) ∧
    (sP.pending = [] → sP.running = [] →
      sP.done.Perm (saved.map (publishOne env u)) ∧ sP.done.length = saved.length) := by
  have hFI := fanReach_inv hF
  have hPI := fanReach_inv hP
  have hw : 0 < bufferWidth := by decide
  refine ⟨⟨hFI.1, hPI.1⟩, fanStuck_iff hw sF, fanStuck_iff hw sP, ?_, ?_⟩
  · intro hp hr
    have hperm := hFI.2
    rw [hp, hr] at hperm
    simp only [List.nil_append, List.map_nil, List.append_nil] at hperm
    exact ⟨hperm, by rw [hperm.length_eq, List.length_map]⟩
  · intro hp hr
    have hperm := hPI.2
    rw [hp, hr] at hperm
    simp only [List.nil_append, List.map_nil, List.append_nil] at hperm
    exact ⟨hperm, by rw [hperm.length_eq, List.length_map]⟩

/-- A completed two-step run of the fetch fan-out over the single package id
`"7"`, used to instantiate `c9_fanout_bounded_no_fail_fast`. -/
def fanC9 : FanState String
    (Except (String × String) (String × Bytes) × List String × List FetchEvent) :=
  ⟨[], [], [fetchOnePackage envOffline "7"]⟩

theorem c9_fanout_bounded_no_fail_fast_witness :
    FanReach bufferWidth (fetchOnePackage envOffline) ["7"] fanC9 ∧
    FanReach bufferWidth (publishOne envOffline 1) []
      (fanInit [] : FanState SavedPlace (Except Nat Nat × List String × List Ev)) ∧
    (fanC9.done.Perm (["7"].map (fetchOnePackage envOffline)) ∧
      fanC9.done.length = (["7"] : List String).length) := by
  have s1 : FanStep bufferWidth (fetchOnePackage envOffline)
      ⟨["7"], [], []⟩ ⟨[], ["7"], []⟩ :=
    FanStep.start "7" [] [] [] (by decide)
  have s2 : FanStep bufferWidth (fetchOnePackage envOffline)
      ⟨[], ["7"], []⟩ fanC9 :=
    FanStep.finish [] [] "7" [] []
  have hF : FanReach bufferWidth (fetchOnePackage envOffline) ["7"] fanC9 :=
    Relation.ReflTransGen.tail (Relation.ReflTransGen.tail .refl s1) s2
  have hP : FanReach bufferWidth (publishOne envOffline 1) []
      (fanInit [] : FanState SavedPlace (Except Nat Nat × List String × List Ev)) :=
    Relation.ReflTransGen.refl
  exact ⟨hF, hP,
    (c9_fanout_bounded_no_fail_fast envOffline 1 ["7"] [] fanC9 _ hF hP).2.2.2.1 rfl rfl⟩

/-! ## Claim C5 -/

/-- Successful component of one fetch-task result. -/
def okPart : Except (String × String) (String × Bytes) → Option (String × Bytes)
  | .ok q => some q
  | .error _ => none

/-- The failure record the collection loop (lines 391-397) emits for one
failed task result. -/
def errRecord : Except (String × String) (String × Bytes) → Option String
  | .ok _ => none
  | .error q => some (msgPkgCollect q.1)

/-- All Failure Records the Content Fetcher emits on account of one content
id: the records sent by that id's fetch task plus the collection-loop record
for a failed result. -/
def recordsFor (env : Env) (pid : String) : List String :=
  (fetchOnePackage env pid).2.1 ++ (errRecord (fetchOnePackage env pid).1).toList

/-- The failure records a fetch task can send all carry the task's content
id. -/
def taskRecordNames (pid msg : String) : Prop :=
  (∃ e, msg = msgPkgMetaParse pid e) ∨ (∃ e, msg = msgPkgMetaSend pid e) ∨
    msg = msgPkgNoCdn pid ∨ (∃ c e, msg = msgPkgCdnGet c pid e) ∨
    (∃ e, msg = msgPkgDecompress pid e)

lemma fetchCollectLoop_spec (rs : List (Except (String × String) (String × Bytes))) :
    ∀ m f, fetchCollectLoop rs m f =
      (m ++ rs.filterMap okPart, f ++ rs.filterMap errRecord) := by
  induction rs with
  | nil => intro m f; simp [fetchCollectLoop]
  | cons r rest ih =>
    intro m f
    match r with
    | .ok (pid, bytes) =>
      simp [fetchCollectLoop, ih, okPart, errRecord, List.filterMap_cons]
    | .error (pid, tag) =>
      simp [fetchCollectLoop, ih, okPart, errRecord, List.filterMap_cons]

/-- A fetch task's result always echoes its own content id. -/
lemma fetchOne_echo (env : Env) (pid : String) :
    (∀ q, (fetchOnePackage env pid).1 = .ok q → q.1 = pid) ∧
    (∀ e, (fetchOnePackage env pid).1 = .error e → e.1 = pid) := by
  constructor <;> intro x h <;>
    (simp only [fetchOnePackage] at h
     repeat' split at h) <;> simp_all <;> (subst h; rfl)

/-- A fetch task sends no failure record on success, and exactly one record
(naming its content id) on failure. -/
lemma fetchOne_records (env : Env) (pid : String) :
    ((fetchOnePackage env pid).1.isOk → (fetchOnePackage env pid).2.1 = []) ∧
    (¬ (fetchOnePackage env pid).1.isOk →
      ∃ msg, (fetchOnePackage env pid).2.1 = [msg] ∧ taskRecordNames pid msg) := by
  constructor <;> intro h <;>
    (simp only [fetchOnePackage] at h ⊢
     repeat' split) <;>
    simp_all [Except.isOk, Except.toBool, taskRecordNames] <;>
    first
      | exact Or.inl ⟨_, rfl⟩
      | exact Or.inr (Or.inl ⟨_, rfl⟩)
      | exact Or.inr (Or.inr (Or.inl rfl))
      | exact Or.inr (Or.inr (Or.inr (Or.inl ⟨_, _, rfl⟩)))

lemma perm_flatten_pair {α : Type} (A B : α → List String) (l : List α) :
    ((l.map A).flatten ++ (l.map B).flatten).Perm
      ((l.map fun x => A x ++ B x).flatten) := by
  induction l with
  | nil => simp
  | cons a rest ih =>
    simp only [List.map_cons, List.flatten_cons, List.append_assoc]
    refine List.Perm.append_left (A a) ?_
    have e1 : (rest.map A).flatten ++ (B a ++ (rest.map B).flatten)
        = ((rest.map A).flatten ++ B a) ++ (rest.map B).flatten := by
      simp [List.append_assoc]
    have h1 : (((rest.map A).flatten ++ B a) ++ (rest.map B).flatten).Perm
        ((B a ++ (rest.map A).flatten) ++ (rest.map B).flatten) :=
      List.Perm.append_right _ List.perm_append_comm
    have e2 : (B a ++ (rest.map A).flatten) ++ (rest.map B).flatten
        = B a ++ ((rest.map A).flatten ++ (rest.map B).flatten) := by
      simp [List.append_assoc]
    rw [e1]
    refine h1.trans ?_
    rw [e2]
    exact List.Perm.append_left (B a) ih

/-- The Failure Records of a whole Content Fetcher run are exactly the
per-content-id records (as a multiset). -/
lemma errRecord_flatten (env : Env) (ids : List String) :
    (ids.map fun pid => (fetchOnePackage env pid).1).filterMap errRecord =
      (ids.map fun pid => (errRecord (fetchOnePackage env pid).1).toList).flatten := by
  induction ids with
  | nil => rfl
  | cons a rest ihh =>
    simp only [List.map_cons, List.filterMap_cons, List.flatten_cons]
    cases h : errRecord (fetchOnePackage env a).1 with
    | none => simpa [h] using ihh
    | some v => simpa [h] using ihh

lemma fetchFails_perm (env : Env) (ids : List String) :
    (fetchPackageAssets env ids).2.1.Perm ((ids.map (recordsFor env)).flatten) := by
  have hexp : (fetchPackageAssets env ids).2.1
      = (ids.map fun pid => (fetchOnePackage env pid).2.1).flatten ++
        (ids.map fun pid => (fetchOnePackage env pid).1).filterMap errRecord := by
    simp only [fetchPackageAssets, fetchCollectLoop_spec, List.nil_append,
      List.map_map]
    rfl
  rw [hexp, errRecord_flatten]
  exact perm_flatten_pair (fun pid => (fetchOnePackage env pid).2.1)
    (fun pid => (errRecord (fetchOnePackage env pid).1).toList) ids

/-- Content ids outside a list contribute no key to the byte cache built
from that list. -/
lemma fetchCache_not_mem (env : Env) (l : List String) (pid : String)
    (h : pid ∉ l) :
    assocLookup ((l.map fun i => (fetchOnePackage env i).1).filterMap okPart) pid
      = none := by
  induction l with
  | nil => rfl
  | cons a rest ih =>
    have ha : ¬ (pid = a ∨ pid ∈ rest) := by simpa using h
    push_neg at ha
    cases hres : (fetchOnePackage env a).1 with
    | ok q =>
      have hq : q.1 = a := (fetchOne_echo env a).1 q hres
      simp only [List.map_cons, List.filterMap_cons, hres, okPart]
      simp only [assocLookup, hq]
      rw [if_neg (fun hc => ha.1 hc.symm)]
      exact ih ha.2
    | error e =>
      simp only [List.map_cons, List.filterMap_cons, hres, okPart]
      exact ih ha.2

lemma fetchCacheList_lookup (env : Env) :
    ∀ (ids : List String) (pid : String), pid ∈ ids → ids.Nodup →
      assocLookup ((ids.map fun i => (fetchOnePackage env i).1).filterMap okPart) pid
        = (okPart (fetchOnePackage env pid).1).map (fun q => q.2) := by
  intro ids
  induction ids with
  | nil => intro pid hmem _; cases hmem
  | cons a rest ih =>
    intro pid hmem hnd
    rcases List.mem_cons.mp hmem with hpa | hpr
    · subst hpa
      have hnr : pid ∉ rest := (List.nodup_cons.mp hnd).1
      rw [List.map_cons, List.filterMap_cons]
      cases hres : (fetchOnePackage env pid).1 with
      | ok q =>
        obtain ⟨k, v⟩ := q
        have hq : k = pid := (fetchOne_echo env pid).1 (k, v) hres
        show (if k = pid then some v
          else assocLookup ((rest.map fun i => (fetchOnePackage env i).1).filterMap okPart) pid)
          = some v
        rw [if_pos hq]
      | error e =>
        show assocLookup ((rest.map fun i => (fetchOnePackage env i).1).filterMap okPart) pid
          = none
        exact fetchCache_not_mem env rest pid hnr
    · have hna : pid ≠ a := fun hc => (List.nodup_cons.mp hnd).1 (hc ▸ hpr)
      have hrest := ih pid hpr (List.nodup_cons.mp hnd).2
      rw [List.map_cons, List.filterMap_cons]
      cases hres : (fetchOnePackage env a).1 with
      | ok q =>
        obtain ⟨k, v⟩ := q
        have hq : k = a := (fetchOne_echo env a).1 (k, v) hres
        show (if k = pid then some v
          else assocLookup ((rest.map fun i => (fetchOnePackage env i).1).filterMap okPart) pid)
          = (okPart (fetchOnePackage env pid).1).map (fun q => q.2)
        rw [if_neg (fun hc => hna ((hq ▸ hc).symm))]
        exact hrest
      | error e =>
        show assocLookup ((rest.map fun i => (fetchOnePackage env i).1).filterMap okPart) pid
          = (okPart (fetchOnePackage env pid).1).map (fun q => q.2)
        exact hrest

/-- Byte-cache lookup for an id in the fetched set is exactly its own fetch
task's successful payload. -/
lemma fetchCache_lookup (env : Env) (ids : List String) (pid : String)
    (hmem : pid ∈ ids) (hnd : ids.Nodup) :
    assocLookup (fetchPackageAssets env ids).1 pid =
      (okPart (fetchOnePackage env pid).1).map (fun q => q.2) := by
  have hexp : (fetchPackageAssets env ids).1
      = (ids.map fun i => (fetchOnePackage env i).1).filterMap okPart := by
    simp only [fetchPackageAssets, fetchCollectLoop_spec, List.nil_append,
      List.map_map]
    rfl
  rw [hexp]
  exact fetchCacheList_lookup env ids pid hmem hnd

/-- C5 (amended): the Content Fetcher's Failure Records are exactly the
per-content-id records; for every id in the (duplicate-free) fetched set
whose fetch fails at any step, exactly TWO Failure Records carrying that id
are emitted (one by the fetch task itself, one by the collection loop), and
the id is absent from the returned byte cache; for every id whose fetch
succeeds no record is emitted and `(id, bytes)` is present in the cache.
(The claim as stated says exactly one record; see the counterexample.) -/
theorem c5_fetch_failure_records_and_cache
    (env : Env) (ids : List String) (pid : String)
    (hmem : pid ∈ ids) (hnd : ids.Nodup) :
    (fetchPackageAssets env ids).2.1.Perm ((ids.map (recordsFor env)).flatten) ∧
    (∀ e, (fetchOnePackage env pid).1 = .error e →
      (recordsFor env pid).length = 2 ∧
      (∃ msg, recordsFor env pid = [msg, msgPkgCollect pid] ∧ taskRecordNames pid msg) ∧
      assocLookup (fetchPackageAssets env ids).1 pid = none) ∧
    (∀ q, (fetchOnePackage env pid).1 = .ok q →
      recordsFor env pid = [] ∧
      assocLookup (fetchPackageAssets env ids).1 pid = some q.2) := by
  refine ⟨fetchFails_perm env ids, ?_, ?_⟩
  · intro e herr
    have hep : e.1 = pid := (fetchOne_echo env pid).2 e herr
    have hnotok : ¬ (fetchOnePackage env pid).1.isOk := by
      rw [herr]; simp [Except.isOk, Except.toBool]
    obtain ⟨msg, hmsg, hname⟩ := (fetchOne_records env pid).2 hnotok
    have hrec : recordsFor env pid = [msg, msgPkgCollect pid] := by
      simp [recordsFor, hmsg, herr, errRecord, hep]
    refine ⟨by rw [hrec]; rfl, ⟨msg, hrec, hname⟩, ?_⟩
    rw [fetchCache_lookup env ids pid hmem hnd, herr]
    rfl
  · intro q hok
    have hisok : (fetchOnePackage env pid).1.isOk := by
      rw [hok]; simp [Except.isOk, Except.toBool]
    have hrec : recordsFor env pid = [] := by
      simp [recordsFor, (fetchOne_records env pid).1 hisok, hok, errRecord]
    refine ⟨hrec, ?_⟩
    rw [fetchCache_lookup env ids pid hmem hnd, hok]
    rfl

/-- C5 counterexample to the claim as stated: for content id `"9"` whose
metadata fetch fails, the Content Fetcher emits exactly TWO Failure Records
carrying `"9"` (not one): the task's record and the collection loop's
record. -/
theorem c5_counterexample_two_records :
    (fetchPackageAssets envOffline ["9"]).2.1 =
      [msgPkgMetaSend "9" "offline", msgPkgCollect "9"] ∧
    (fetchPackageAssets envOffline ["9"]).2.1.length ≠ 1 := by
  constructor
  · rfl
  · decide

theorem c5_fetch_failure_records_and_cache_witness :
    ("9" ∈ (["9"] : List String)) ∧ (["9"] : List String).Nodup ∧
    (fetchOnePackage envOffline "9").1 = .error ("9", "meta_failed") ∧
    ((recordsFor envOffline "9").length = 2 ∧
      (∃ msg, recordsFor envOffline "9" = [msg, msgPkgCollect "9"] ∧
        taskRecordNames "9" msg) ∧
      assocLookup (fetchPackageAssets envOffline ["9"]).1 "9" = none) := by
  refine ⟨by decide, by decide, rfl, ?_⟩
  exact (c5_fetch_failure_records_and_cache envOffline ["9"] "9" (by decide)
    (by decide)).2.1 ("9", "meta_failed") rfl

/-! ## Claim C7 -/

/-- Is this event a metadata lookup for the given content id? -/
def isMetaFor (pid : String) : FetchEvent → Bool
  | .metaLookup p => p == pid
  | _ => false

/-- Is this event a CDN fetch for the given content id? -/
def isCdnFor (pid : String) : FetchEvent → Bool
  | .cdnGet p _ => p == pid
  | _ => false

/-- Number of metadata lookups issued for a content id. -/
def metaCount (evs : List FetchEvent) (pid : String) : Nat :=
  (evs.filter (isMetaFor pid)).length

/-- Number of CDN fetches issued for a content id. -/
def cdnCount (evs : List FetchEvent) (pid : String) : Nat :=
  (evs.filter (isCdnFor pid)).length

/-- Whether a content id's metadata lookup resolves to a `"source"` CDN
location (the condition under which the fetch proceeds to the CDN GET). -/
def metaResolves (env : Env) (pid : String) : Bool :=
  match env.assetMeta pid with
  | .ok meta => (findCdn meta.locations).isSome
  | .error _ => false

lemma uniquePackages_nodup (pd : List PlaceData) : (uniquePackages pd).Nodup :=
  List.nodup_dedup _

lemma mem_uniquePackages (pd : List PlaceData) (s : String) :
    s ∈ uniquePackages pd ↔ ∃ p ∈ pd, ∃ w ∈ p.toWork, w.packageIdNumbers = s := by
  simp only [uniquePackages, List.mem_dedup, List.mem_flatten, List.mem_map]
  constructor
  · rintro ⟨l, ⟨p, hp, rfl⟩, hs⟩
    rcases List.mem_map.mp hs with ⟨w, hw, rfl⟩
    exact ⟨p, hp, w, hw, rfl⟩
  · rintro ⟨p, hp, w, hw, rfl⟩
    exact ⟨_, ⟨p, hp, rfl⟩, List.mem_map.mpr ⟨w, hw, rfl⟩⟩

/-- One fetch task performs exactly one metadata lookup for its own id (none
for other ids), and exactly one CDN fetch when the metadata resolves to a
source location (none otherwise, and none for other ids). -/
lemma fetchOne_events (env : Env) (pid other : String) :
    ((fetchOnePackage env pid).2.2.filter (isMetaFor other)).length
      = (if other = pid then 1 else 0) ∧
    ((fetchOnePackage env pid).2.2.filter (isCdnFor other)).length
      = (if other = pid ∧ metaResolves env pid = true then 1 else 0) := by
  by_cases h : other = pid
  · subst h
    cases hma : env.assetMeta other with
    | error ge =>
      cases ge <;>
        simp [fetchOnePackage, hma, isMetaFor, isCdnFor, metaResolves]
    | ok meta =>
      cases hcdn : findCdn meta.locations with
      | none => simp [fetchOnePackage, hma, hcdn, isMetaFor, isCdnFor, metaResolves]
      | some cdn =>
        cases hget : env.getCdn cdn with
        | error e =>
          simp [fetchOnePackage, hma, hcdn, hget, isMetaFor, isCdnFor, metaResolves]
        | ok resp =>
          cases hdec : decompressIfNeeded env resp with
          | error e =>
            simp [fetchOnePackage, hma, hcdn, hget, hdec, isMetaFor, isCdnFor,
              metaResolves]
          | ok bytes =>
            simp [fetchOnePackage, hma, hcdn, hget, hdec, isMetaFor, isCdnFor,
              metaResolves]
  · have hne : (pid == other) = false := by
      simp [Ne.symm h]
    cases hma : env.assetMeta pid with
    | error ge =>
      cases ge <;>
        simp [fetchOnePackage, hma, isMetaFor, isCdnFor, hne, h]
    | ok meta =>
      cases hcdn : findCdn meta.locations with
      | none => simp [fetchOnePackage, hma, hcdn, isMetaFor, isCdnFor, hne, h]
      | some cdn =>
        cases hget : env.getCdn cdn with
        | error e =>
          simp [fetchOnePackage, hma, hcdn, hget, isMetaFor, isCdnFor, hne, h]
        | ok resp =>
          cases hdec : decompressIfNeeded env resp with
          | error e =>
            simp [fetchOnePackage, hma, hcdn, hget, hdec, isMetaFor, isCdnFor, hne, h]
          | ok bytes =>
            simp [fetchOnePackage, hma, hcdn, hget, hdec, isMetaFor, isCdnFor, hne, h]

/-- The Content Fetcher's event list is the concatenation of the per-task
event lists. -/
lemma fetchEvents_eq (env : Env) (ids : List String) :
    (fetchPackageAssets env ids).2.2
      = (ids.map fun pid => (fetchOnePackage env pid).2.2).flatten := by
  simp only [fetchPackageAssets, List.map_map]
  rfl

lemma fetchEvents_not_mem (env : Env) (l : List String) (pid : String)
    (h : pid ∉ l) :
    metaCount ((l.map fun i => (fetchOnePackage env i).2.2).flatten) pid = 0 ∧
    cdnCount ((l.map fun i => (fetchOnePackage env i).2.2).flatten) pid = 0 := by
  induction l with
  | nil => exact ⟨rfl, rfl⟩
  | cons a rest ih =>
    have ha : ¬ (pid = a ∨ pid ∈ rest) := by simpa using h
    push_neg at ha
    have hrest := ih ha.2
    have hone := fetchOne_events env a pid
    rw [if_neg ha.1] at hone
    have hone2 := hone.2
    rw [if_neg (fun hc => ha.1 hc.1)] at hone2
    refine ⟨?_, ?_⟩
    · simp only [metaCount, List.map_cons, List.flatten_cons, List.filter_append,
        List.length_append]
      have h1 := hone.1
      have h2 : metaCount ((rest.map fun i => (fetchOnePackage env i).2.2).flatten)
          pid = 0 := hrest.1
      simp only [metaCount] at h2
      omega
    · simp only [cdnCount, List.map_cons, List.flatten_cons, List.filter_append,
        List.length_append]
      have h1 := hone2
      have h2 : cdnCount ((rest.map fun i => (fetchOnePackage env i).2.2).flatten)
          pid = 0 := hrest.2
      simp only [cdnCount] at h2
      omega

/-- Event counts for an id in a duplicate-free fetched list: one metadata
lookup, and one CDN fetch exactly when the metadata resolves. -/
lemma fetchEvents_counts (env : Env) (ids : List String) (pid : String)
    (hmem : pid ∈ ids) (hnd : ids.Nodup) :
    metaCount (fetchPackageAssets env ids).2.2 pid = 1 ∧
    cdnCount (fetchPackageAssets env ids).2.2 pid =
      (if metaResolves env pid = true then 1 else 0) := by
  rw [fetchEvents_eq]
  induction ids with
  | nil => cases hmem
  | cons a rest ih =>
    rcases List.mem_cons.mp hmem with hpa | hpr
    · subst hpa
      have hnr : pid ∉ rest := (List.nodup_cons.mp hnd).1
      have hone := fetchOne_events env pid pid
      rw [if_pos rfl] at hone
      have hrest := fetchEvents_not_mem env rest pid hnr
      refine ⟨?_, ?_⟩
      · simp only [metaCount, List.map_cons, List.flatten_cons, List.filter_append,
          List.length_append]
        have h1 := hone.1
        have h2 : metaCount ((rest.map fun i => (fetchOnePackage env i).2.2).flatten)
            pid = 0 := hrest.1
        simp only [metaCount] at h2
        omega
      · simp only [cdnCount, List.map_cons, List.flatten_cons, List.filter_append,
          List.length_append]
        have h1 := hone.2
        have h2 : cdnCount ((rest.map fun i => (fetchOnePackage env i).2.2).flatten)
            pid = 0 := hrest.2
        simp only [cdnCount] at h2
        by_cases hres : metaResolves env pid = true
        · rw [if_pos hres]
          rw [if_pos ⟨rfl, hres⟩] at h1
          omega
        · rw [if_neg hres]
          rw [if_neg (fun hc => hres hc.2)] at h1
          omega
    · have hna : pid ≠ a := fun hc => (List.nodup_cons.mp hnd).1 (hc ▸ hpr)
      have hrest := ih hpr (List.nodup_cons.mp hnd).2
      have hone := fetchOne_events env a pid
      rw [if_neg hna] at hone
      have hone2 := hone.2
      rw [if_neg (fun hc => hna hc.1)] at hone2
      refine ⟨?_, ?_⟩
      · simp only [metaCount, List.map_cons, List.flatten_cons, List.filter_append,
          List.length_append]
        have h1 := hone.1
        have h2 := hrest.1
        simp only [metaCount] at h2
        omega
      · simp only [cdnCount, List.map_cons, List.flatten_cons, List.filter_append,
          List.length_append]
        have h2 := hrest.2
        simp only [cdnCount] at h2
        by_cases hres : metaResolves env pid = true
        · rw [if_pos hres] at h2 ⊢
          omega
        · rw [if_neg hres] at h2 ⊢
          omega

/-- C7: the id set handed to the Content Fetcher is the deduplicated union
of all Work Items' content ids (duplicate-free, with exactly the referenced
ids as members), and for each id in that set the fetcher issues exactly one
metadata lookup and exactly one CDN fetch (the CDN fetch happening exactly
when the metadata resolves to a `"source"` location, and never more than
once) — in particular two scenes referencing the same content id share one
fetch. -/
theorem c7_dedup_single_fetch
    (env : Env) (placesData : List PlaceData) (pid : String)
    (hmem : pid ∈ uniquePackages placesData) :
    (uniquePackages placesData).Nodup ∧
    (∀ s, s ∈ uniquePackages placesData ↔
      ∃ p ∈ placesData, ∃ w ∈ p.toWork, w.packageIdNumbers = s) ∧
    metaCount (fetchPackageAssets env (uniquePackages placesData)).2.2 pid = 1 ∧
    cdnCount (fetchPackageAssets env (uniquePackages placesData)).2.2 pid =
      (if metaResolves env pid = true then 1 else 0) := by
  obtain ⟨h1, h2⟩ := fetchEvents_counts env (uniquePackages placesData) pid hmem
    (uniquePackages_nodup placesData)
  exact ⟨uniquePackages_nodup placesData, fun s => mem_uniquePackages placesData s,
    h1, h2⟩

/-- Two places both referencing package `"5"`, for the C7 witness. -/
def placesC7 : List PlaceData :=
  [⟨1, "A", sceneW, [⟨"5", 4, 3, 2⟩]⟩, ⟨2, "B", sceneW, [⟨"5", 4, 3, 2⟩]⟩]

theorem c7_dedup_single_fetch_witness :
    "5" ∈ uniquePackages placesC7 ∧
    ((uniquePackages placesC7).Nodup ∧
      (∀ s, s ∈ uniquePackages placesC7 ↔
        ∃ p ∈ placesC7, ∃ w ∈ p.toWork, w.packageIdNumbers = s) ∧
      metaCount (fetchPackageAssets envOffline (uniquePackages placesC7)).2.2 "5" = 1 ∧
      cdnCount (fetchPackageAssets envOffline (uniquePackages placesC7)).2.2 "5" =
        (if metaResolves envOffline "5" = true then 1 else 0)) :=
  ⟨by decide, c7_dedup_single_fetch envOffline placesC7 "5" (by decide)⟩

/-! ## Claim C2 -/

/-- C2: for every Work Item with hierarchy groupParent (`gp`) → wrapper
(`wr`) → placeholder (`pl`) whose content id is in the byte cache and whose
cached bytes decode afresh to a DOM with synthetic root `pr`, content root
`rR` and content child `rK` (all seven referents distinct), the transplant
succeeds (the replacement counter is incremented, no failure record is
added) and the resulting scene DOM has: `rR` among `gp`'s children; both
`rK` and the relocated placeholder `pl` among `rR`'s children; the
placeholder keeping its class and properties; and the wrapper `wr` absent
from the graph. -/
theorem c2_successful_transplant
    (env : Env) (cache : List (String × Bytes)) (pname : String) (pid : Nat)
    (fails : List String) (reps : Nat)
    (sr gp wr pl pr rR rK : Ref)
    (cs cg cw cl cr cR cK : String)
    (psS psG psW psL psRoot psR psK : List (String × Variant))
    (pkgId : String) (bytes : Bytes)
    (hnd : ([sr, gp, wr, pl, pr, rR, rK] : List Ref).Nodup)
    (hcache : assocLookup cache pkgId = some bytes)
    (hdecode : env.decodeDom bytes =
      .ok ⟨pr, [(pr, ⟨cr, psRoot, 0, [rR]⟩), (rR, ⟨cR, psR, pr, [rK]⟩),
                (rK, ⟨cK, psK, rR, []⟩)]⟩) :
    ∃ d : WeakDom,
      processWork env cache pname pid
          ⟨sr, [(sr, ⟨cs, psS, 0, [gp]⟩), (gp, ⟨cg, psG, sr, [wr]⟩),
                (wr, ⟨cw, psW, gp, [pl]⟩), (pl, ⟨cl, psL, wr, []⟩)]⟩
          fails reps ⟨pkgId, pl, wr, gp⟩ =
        .ok (d, fails, reps + 1) ∧
      d.getByRef gp = some ⟨cg, psG, sr, [rR]⟩ ∧
      d.getByRef rR = some ⟨cR, psR, gp, [rK, pl]⟩ ∧
      d.getByRef pl = some ⟨cl, psL, rR, []⟩ ∧
      d.getByRef wr = none := by
  simp only [List.nodup_cons, List.mem_cons, List.not_mem_nil, or_false,
    not_or, List.nodup_nil, and_true] at hnd
  obtain ⟨⟨h12, h13, h14, h15, h16, h17⟩, ⟨h23, h24, h25, h26, h27⟩,
    ⟨h34, h35, h36, h37⟩, ⟨h45, h46, h47⟩, ⟨h56, h57⟩, h67, -⟩ := hnd
  refine ⟨⟨sr, [(sr, ⟨cs, psS, 0, [gp]⟩), (gp, ⟨cg, psG, sr, [rR]⟩),
      (rR, ⟨cR, psR, gp, [rK, pl]⟩), (rK, ⟨cK, psK, rR, []⟩),
      (pl, ⟨cl, psL, rR, []⟩)]⟩, ?_, ?_, ?_, ?_, ?_⟩
  · simp only [processWork, hcache, hdecode]
    simp [WeakDom.rootChildren, WeakDom.transfer, WeakDom.destroy, unlinkChild,
      subtreeList, assocLookup,
      h12, h13, h14, h15, h16, h17, h23, h24, h25, h26, h27,
      h34, h35, h36, h37, h45, h46, h47, h56, h57, h67,
      (Ne.symm h12), (Ne.symm h13), (Ne.symm h14), (Ne.symm h15), (Ne.symm h16), (Ne.symm h17),
      (Ne.symm h23), (Ne.symm h24), (Ne.symm h25), (Ne.symm h26), (Ne.symm h27),
      (Ne.symm h34), (Ne.symm h35), (Ne.symm h36), (Ne.symm h37),
      (Ne.symm h45), (Ne.symm h46), (Ne.symm h47), (Ne.symm h56), (Ne.symm h57), (Ne.symm h67)]
  all_goals
    simp [WeakDom.getByRef, assocLookup,
      h12, h13, h14, h15, h16, h17, h23, h24, h25, h26, h27,
      h34, h35, h36, h37, h45, h46, h47, h56, h57, h67,
      (Ne.symm h12), (Ne.symm h13), (Ne.symm h14), (Ne.symm h15), (Ne.symm h16),
      (Ne.symm h17), (Ne.symm h23), (Ne.symm h24), (Ne.symm h25), (Ne.symm h26),
      (Ne.symm h27), (Ne.symm h34), (Ne.symm h35), (Ne.symm h36), (Ne.symm h37),
      (Ne.symm h45), (Ne.symm h46), (Ne.symm h47), (Ne.symm h56), (Ne.symm h57),
      (Ne.symm h67)]

/-- Environment whose codec decodes every payload to the fixture package. -/
def envC2 : Env := { envOffline with decodeDom := fun _ => .ok pkgW }

theorem c2_successful_transplant_witness :
    (([1, 2, 3, 4, 10, 11, 12] : List Ref).Nodup) ∧
    assocLookup [("77", ([9] : Bytes))] "77" = some [9] ∧
    envC2.decodeDom [9] =
      .ok ⟨10, [(10, ⟨"DataModel", [], 0, [11]⟩), (11, ⟨"Model", [], 10, [12]⟩),
                (12, ⟨"Part", [], 11, []⟩)]⟩ ∧
    (∃ d : WeakDom,
      processWork envC2 [("77", [9])] "Place" 7
          ⟨1, [(1, ⟨"DataModel", [], 0, [2]⟩), (2, ⟨"Folder", [], 1, [3]⟩),
               (3, ⟨"Model", [], 2, [4]⟩),
               (4, ⟨"PackageLink",
                    [("PackageId", Variant.contentId "rbxassetid://55")], 3, []⟩)]⟩
          [] 0 ⟨"77", 4, 3, 2⟩ =
        .ok (d, [], 0 + 1) ∧
      d.getByRef 2 = some ⟨"Folder", [], 1, [11]⟩ ∧
      d.getByRef 11 = some ⟨"Model", [], 2, [12, 4]⟩ ∧
      d.getByRef 4 = some ⟨"PackageLink",
        [("PackageId", Variant.contentId "rbxassetid://55")], 11, []⟩ ∧
      d.getByRef 3 = none) :=
  ⟨by decide, rfl, rfl,
    c2_successful_transplant envC2 [("77", [9])] "Place" 7 [] 0
      1 2 3 4 10 11 12 "DataModel" "Folder" "Model" "PackageLink"
      "DataModel" "Model" "Part" [] [] []
      [("PackageId", Variant.contentId "rbxassetid://55")] [] [] []
      "77" [9] (by decide) rfl rfl⟩

/-! ## File-store lemmas -/

lemma assocLookup_filter_ne {β : Type} (fs : List (Nat × β)) (id x : Nat)
    (h : x ≠ id) :
    assocLookup (fs.filter fun q => decide (q.1 ≠ id)) x = assocLookup fs x := by
  induction fs with
  | nil => rfl
  | cons q rest ih =>
    obtain ⟨k, v⟩ := q
    by_cases hk : k = id
    · subst hk
      rw [show List.filter (fun q => decide (q.1 ≠ k)) ((k, v) :: rest)
          = List.filter (fun q => decide (q.1 ≠ k)) rest from by
        simp [List.filter_cons]]
      rw [ih]
      show assocLookup rest x = if k = x then some v else assocLookup rest x
      rw [if_neg (fun hc => h hc.symm)]
    · rw [show List.filter (fun q => decide (q.1 ≠ id)) ((k, v) :: rest)
          = (k, v) :: List.filter (fun q => decide (q.1 ≠ id)) rest from by
        simp [List.filter_cons, hk]]
      show (if k = x then some v
          else assocLookup (rest.filter fun q => decide (q.1 ≠ id)) x)
        = if k = x then some v else assocLookup rest x
      rw [ih]

lemma assocLookup_filter_self {β : Type} (fs : List (Nat × β)) (id : Nat) :
    assocLookup (fs.filter fun q => decide (q.1 ≠ id)) id = none := by
  induction fs with
  | nil => rfl
  | cons q rest ih =>
    obtain ⟨k, v⟩ := q
    by_cases hk : k = id
    · subst hk
      rw [show List.filter (fun q => decide (q.1 ≠ k)) ((k, v) :: rest)
          = List.filter (fun q => decide (q.1 ≠ k)) rest from by
        simp [List.filter_cons]]
      exact ih
    · rw [show List.filter (fun q => decide (q.1 ≠ id)) ((k, v) :: rest)
          = (k, v) :: List.filter (fun q => decide (q.1 ≠ id)) rest from by
        simp [List.filter_cons, hk]]
      show (if k = id then some v
          else assocLookup (rest.filter fun q => decide (q.1 ≠ id)) id) = none
      rw [if_neg hk]
      exact ih

lemma assocLookup_append {β : Type} (l1 l2 : List (Nat × β)) (x : Nat) :
    assocLookup (l1 ++ l2) x =
      (match assocLookup l1 x with
        | some v => some v
        | none => assocLookup l2 x) := by
  induction l1 with
  | nil => rfl
  | cons q rest ih =>
    obtain ⟨k, v⟩ := q
    by_cases hk : k = x
    · simp [assocLookup, hk]
    · show (if k = x then some v else assocLookup (rest ++ l2) x) = _
      rw [if_neg hk, ih]
      show _ = (match (if k = x then some v else assocLookup rest x) with
        | some v => some v
        | none => assocLookup l2 x)
      rw [if_neg hk]

lemma fsWrite_lookup (fs : Fs) (id : Nat) (b : Bytes) (x : Nat) :
    assocLookup (fsWrite fs id b) x = if x = id then some b else assocLookup fs x := by
  unfold fsWrite
  rw [assocLookup_append]
  by_cases h : x = id
  · subst h
    rw [assocLookup_filter_self]
    simp [assocLookup]
  · rw [assocLookup_filter_ne _ _ _ h]
    rw [if_neg h]
    cases hfs : assocLookup fs x with
    | some v => rfl
    | none =>
      show assocLookup [(id, b)] x = none
      show (if id = x then some b else none) = none
      rw [if_neg (fun hc => h hc.symm)]

/-! ## Save-stage structure lemmas -/

lemma processPlacesLoop_shape (env : Env) (cache : List (String × Bytes)) :
    ∀ (pd : List PlaceData) (saved : List SavedPlace) (fs : Fs)
      (fails : List String) (evs : List Ev) (saved' : List SavedPlace) (fs' : Fs)
      (fails' : List String) (evs' : List Ev),
      processPlacesLoop env cache pd saved fs fails evs
        = (.ok saved', fs', fails', evs') →
      (pd.map (fun p => p.id)).Nodup →
      (∀ p ∈ pd, p.id ∉ saved.map (fun s => s.id)) →
      (∀ s ∈ saved, assocLookup fs s.id = some s.buffer) →
      saved'.map (fun s => s.id)
          = saved.map (fun s => s.id) ++ pd.map (fun p => p.id) ∧
      evs' = evs ++ pd.map (fun p => Ev.fileWrite p.id) ∧
      (∀ s ∈ saved', assocLookup fs' s.id = some s.buffer) := by
  intro pd
  induction pd with
  | nil =>
    intro saved fs fails evs saved' fs' fails' evs' h _ _ hpre
    simp only [processPlacesLoop, Prod.mk.injEq, Except.ok.injEq] at h
    obtain ⟨h1, h2, _, h4⟩ := h
    subst h1
    subst h2
    subst h4
    simpa using hpre
  | cons pl rest ih =>
    intro saved fs fails evs saved' fs' fails' evs' h hnd hdisj hpre
    simp only [processPlacesLoop] at h
    cases hwl : processWorkLoop env cache pl.name pl.id pl.toWork pl.dom fails 0 with
    | error a => simp only [hwl] at h; simp at h
    | ok trip =>
      obtain ⟨dom2, fails2, reps2⟩ := trip
      simp only [hwl] at h
      cases henc : env.encodeDom dom2 with
      | error e => simp only [henc] at h; simp at h
      | ok buffer =>
        simp only [henc] at h
        cases hw : env.writeFile pl.id buffer with
        | error e => simp only [hw] at h; simp at h
        | ok unitv =>
          simp only [hw] at h
          have hplid : pl.id ∉ rest.map (fun p => p.id) := (List.nodup_cons.mp hnd).1
          have hnd' : (rest.map (fun p => p.id)).Nodup := (List.nodup_cons.mp hnd).2
          have hdisj' : ∀ p ∈ rest,
              p.id ∉ (saved ++ [(⟨pl.id, pl.name, buffer⟩ : SavedPlace)]).map
                (fun s => s.id) := by
            intro p hp
            simp only [List.map_append, List.map_cons, List.map_nil, List.mem_append,
              List.mem_cons, List.not_mem_nil, or_false]
            rintro (hin | hid)
            · exact hdisj p (List.mem_cons_of_mem _ hp) hin
            · exact hplid (hid ▸ List.mem_map.mpr ⟨p, hp, rfl⟩)
          have hpre' : ∀ s ∈ saved ++ [(⟨pl.id, pl.name, buffer⟩ : SavedPlace)],
              assocLookup (fsWrite fs pl.id buffer) s.id = some s.buffer := by
            intro s hs
            rcases List.mem_append.mp hs with hs1 | hs2
            · have hne : s.id ≠ pl.id := by
                intro hc
                exact hdisj pl (List.mem_cons_self _ _)
                  (hc ▸ List.mem_map.mpr ⟨s, hs1, rfl⟩)
              rw [fsWrite_lookup, if_neg hne]
              exact hpre s hs1
            · have hs2' : s = (⟨pl.id, pl.name, buffer⟩ : SavedPlace) := by
                simpa using hs2
              subst hs2'
              rw [fsWrite_lookup, if_pos rfl]
          obtain ⟨c1, c2, c3⟩ := ih _ _ _ _ _ _ _ _ h hnd' hdisj' hpre'
          refine ⟨?_, ?_, c3⟩
          · rw [c1]
            simp
          · rw [c2]
            simp

/-- The save stage, started from empty accumulators. -/
lemma processPlacesAndSave_shape (env : Env) (cache : List (String × Bytes))
    (pd : List PlaceData) (saved : List SavedPlace) (fs : Fs)
    (fails : List String) (evs : List Ev)
    (hok : processPlacesAndSave env pd cache = (.ok saved, fs, fails, evs))
    (hnd : (pd.map (fun p => p.id)).Nodup) :
    saved.map (fun s => s.id) = pd.map (fun p => p.id) ∧
    evs = pd.map (fun p => Ev.fileWrite p.id) ∧
    (∀ s ∈ saved, assocLookup fs s.id = some s.buffer) := by
  have := processPlacesLoop_shape env cache pd [] [] [] [] saved fs fails evs hok
    hnd (by simp) (by simp)
  simpa using this

/-! ## Totality of the save loop when no per-place panic input is present -/

lemma processPlacesLoop_total (env : Env) (cache : List (String × Bytes))
    (hencode : ∀ d, ∃ b, env.encodeDom d = .ok b)
    (hwrite : ∀ id b, env.writeFile id b = .ok ()) :
    ∀ (pd : List PlaceData) (saved : List SavedPlace) (fs : Fs)
      (fails : List String) (evs : List Ev),
      (∀ p ∈ pd, ∀ fails0 reps0, ∃ trip,
        processWorkLoop env cache p.name p.id p.toWork p.dom fails0 reps0
          = .ok trip) →
      ∃ saved' fs' fails' evs',
        processPlacesLoop env cache pd saved fs fails evs
          = (.ok saved', fs', fails', evs') := by
  intro pd
  induction pd with
  | nil => intro saved fs fails evs _; exact ⟨_, _, _, _, rfl⟩
  | cons pl rest ih =>
    intro saved fs fails evs hno
    obtain ⟨⟨dom2, fails2, reps2⟩, hwl⟩ :=
      hno pl (List.mem_cons_self _ _) fails 0
    obtain ⟨buffer, henc⟩ := hencode dom2
    simp only [processPlacesLoop, hwl, henc, hwrite pl.id buffer]
    exact ih _ _ _ _ (fun p hp => hno p (List.mem_cons_of_mem _ hp))

/-! ## Publisher structure lemmas -/

/-- Whether the publish call for one saved place comes back 2xx. -/
def publishOk (env : Env) (u : Nat) (s : SavedPlace) : Bool :=
  match env.publish u s.id s.buffer with
  | .ok status => decide (200 ≤ status ∧ status < 300)
  | .error _ => false

lemma publishOne_events (env : Env) (u : Nat) (s : SavedPlace) :
    (publishOne env u s).2.2 = [Ev.publishAttempt s.id (publishOk env u s)] := by
  unfold publishOne publishOk
  cases hp : env.publish u s.id s.buffer with
  | ok status =>
    by_cases h : 200 ≤ status ∧ status < 300 <;> simp [hp, h]
  | error e => simp [hp]

lemma publishSavedPlaces_parts (env : Env) (u : Nat) (saved : List SavedPlace) :
    (publishSavedPlaces env u saved).1.length = saved.length ∧
    (publishSavedPlaces env u saved).2.2
      = saved.map (fun s => Ev.publishAttempt s.id (publishOk env u s)) := by
  constructor
  · simp [publishSavedPlaces]
  · induction saved with
    | nil => rfl
    | cons s rest ihs =>
      simp only [publishSavedPlaces, List.map_cons, List.map_map,
        List.flatten_cons] at ihs ⊢
      rw [publishOne_events]
      simpa using ihs

/-! ## Claim C10 -/

/-- C10: every successfully decoded scene handed to the save stage is
re-serialized, written to disk (one write event per scene, in order), and
included in the publish set (one publish result and one publish attempt per
saved scene) — with no condition on its Work Items, so scenes with zero
placeholders or zero successful transplants are saved and published like
any other; nothing is skipped for being unchanged. -/
theorem c10_unchanged_scenes_still_saved_and_published
    (env : Env) (u : Nat) (pd : List PlaceData) (cache : List (String × Bytes))
    (saved : List SavedPlace) (fs : Fs) (fails : List String) (evs : List Ev)
    (hok : processPlacesAndSave env pd cache = (.ok saved, fs, fails, evs))
    (hnd : (pd.map (fun p => p.id)).Nodup) :
    saved.map (fun s => s.id) = pd.map (fun p => p.id) ∧
    evs = pd.map (fun p => Ev.fileWrite p.id) ∧
    (∀ s ∈ saved, assocLookup fs s.id = some s.buffer) ∧
    (publishSavedPlaces env u saved).1.length = pd.length ∧
    (publishSavedPlaces env u saved).2.2
      = saved.map (fun s => Ev.publishAttempt s.id (publishOk env u s)) := by
  obtain ⟨c1, c2, c3⟩ :=
    processPlacesAndSave_shape env cache pd saved fs fails evs hok hnd
  refine ⟨c1, c2, c3, ?_, (publishSavedPlaces_parts env u saved).2⟩
  rw [(publishSavedPlaces_parts env u saved).1]
  have hlen := congrArg List.length c1
  simpa using hlen

/-- A decoded place holding no PackageLink at all. -/
def placeNoLinks : PlaceData := ⟨7, "Plain", ⟨1, [(1, ⟨"DataModel", [], 0, []⟩)]⟩, []⟩

theorem c10_unchanged_scenes_still_saved_and_published_witness :
    processPlacesAndSave envOffline [placeNoLinks] [] =
      (.ok [⟨7, "Plain", []⟩], [(7, [])], [], [Ev.fileWrite 7]) ∧
    (([placeNoLinks].map (fun p => p.id)).Nodup) ∧
    (([⟨7, "Plain", []⟩] : List SavedPlace).map (fun s => s.id)
        = [placeNoLinks].map (fun p => p.id) ∧
      [Ev.fileWrite 7] = [placeNoLinks].map (fun p => Ev.fileWrite p.id) ∧
      (∀ s ∈ ([⟨7, "Plain", []⟩] : List SavedPlace),
        assocLookup ([(7, [])] : Fs) s.id = some s.buffer) ∧
      (publishSavedPlaces envOffline 1 [⟨7, "Plain", []⟩]).1.length
        = [placeNoLinks].length ∧
      (publishSavedPlaces envOffline 1 [⟨7, "Plain", []⟩]).2.2
        = ([⟨7, "Plain", []⟩] : List SavedPlace).map
            (fun s => Ev.publishAttempt s.id (publishOk envOffline 1 s))) :=
  ⟨rfl, by decide,
    c10_unchanged_scenes_still_saved_and_published envOffline 1 [placeNoLinks] []
      [⟨7, "Plain", []⟩] [(7, [])] [] [Ev.fileWrite 7] rfl (by decide)⟩

/-! ## Claim C4

The claim says no failure occurring after per-item processing has begun
aborts the run. But `process_places_and_save` serializes and writes each
scene with `?` (lines 466, 470-472): a serialization or file-write failure
for one scene aborts the whole stage (and `main` propagates it), dropping
every remaining scene — including their pending per-item Failure Records.
Two Work-Item shapes additionally panic and abort the process: a package
whose fresh decode has a childless root (claim C1), and a Work Item whose
placeholder, wrapper or splice-target referent is no longer in the scene
graph when its turn comes — which the collector can produce whenever one
PackageLink wrapper is nested inside another wrapper's subtree, since the
outer item's `destroy` removes the inner item's referents
(`nested_package_links_panic` below). The remaining per-item failure kinds
(transport, resolution, decode, publish-rejected, cache-miss) are isolated
and non-fatal. -/

/-- Environment whose disk write fails for place id 7 only. -/
def envC4 : Env :=
  { envOffline with writeFile := fun id _ => if id = 7 then .error "disk full" else .ok () }

/-- A place whose single Work Item references a package missing from the
byte cache (a per-item failure the claim says must be reported). -/
def placeMissingPkg : PlaceData := ⟨8, "B", sceneW, [⟨"55", 4, 3, 2⟩]⟩

/-- A scene with nested PackageLinks: wrapper 3 (under folder 2) holds
link 4 and a second wrapper 5, which holds link 6 — exactly what the scan
of main.rs:222-263 collects as two Work Items. -/
def sceneNested : WeakDom :=
  ⟨1, [(1, ⟨"DataModel", [], 0, [2]⟩), (2, ⟨"Folder", [], 1, [3]⟩),
       (3, ⟨"Model", [], 2, [4, 5]⟩),
       (4, ⟨"PackageLink", [("PackageId", Variant.contentId "rbxassetid://77")], 3, []⟩),
       (5, ⟨"Model", [], 3, [6]⟩),
       (6, ⟨"PackageLink", [("PackageId", Variant.contentId "rbxassetid://77")], 5, []⟩)]⟩

/-- With nested PackageLinks, processing the outer Work Item destroys the
inner wrapper subtree, so the inner item's `place.dom.transfer`
(main.rs:440-442) finds its placeholder referent missing and panics,
aborting the run: the model reproduces the library's documented panic
instead of counting a vanished placeholder as a success. -/
theorem nested_package_links_panic :
    processPlacesAndSave envC2
        [⟨9, "N", sceneNested, [⟨"77", 4, 3, 2⟩, ⟨"77", 6, 5, 3⟩]⟩] [("77", [9])] =
      (.error (.panic "cannot transfer an instance that is not in the DOM"),
        [], [], []) := by
  decide

/-- C4 counterexample: the first scene processes, serializes, and then its
local write fails; the stage aborts on the spot — the second scene's
per-item cache-miss failure is never processed or reported (the failure
list is empty) even though per-item processing had begun. -/
theorem c4_counterexample_write_abort :
    processPlacesAndSave envC4 [placeNoLinks, placeMissingPkg] [] =
      (.error (.err "disk full"), [], [], []) := by
  decide

/-- C4 (amended): per-item cache-miss and package-decode failures in the
Transplanter are isolated to their Work Item — the scene DOM is left
unchanged, exactly one Failure Record is appended, and the per-item loop
proceeds to the next Work Item — and, provided no place's Work-Item loop
panics (empty content root, claim C1, or a referent already gone from the
scene graph, as with nested PackageLinks) and every scene serialization and
local write succeeds, the save stage completes over every remaining scene
and the Publisher resolves every saved scene without aborting (one result
per scene regardless of publish failures). Serialization/write failures
abort the run (see the counterexample) and the panics abort the process. -/
theorem c4_per_item_failures_isolated
    (env : Env) (u : Nat) (pd : List PlaceData) (cache : List (String × Bytes))
    (hnd : (pd.map (fun p => p.id)).Nodup)
    (hnopanic : ∀ p ∈ pd, ∀ fails0 reps0, ∃ trip,
      processWorkLoop env cache p.name p.id p.toWork p.dom fails0 reps0 = .ok trip)
    (hencode : ∀ d, ∃ b, env.encodeDom d = .ok b)
    (hwrite : ∀ id b, env.writeFile id b = .ok ()) :
    (∀ pname pid dom fails reps w rest,
      assocLookup cache w.packageIdNumbers = none →
      processWorkLoop env cache pname pid (w :: rest) dom fails reps
        = processWorkLoop env cache pname pid rest dom
            (fails ++ [msgNoFetchedAsset w.packageIdNumbers pname pid]) reps) ∧
    (∀ pname pid dom fails reps w rest bytes e,
      assocLookup cache w.packageIdNumbers = some bytes →
      env.decodeDom bytes = .error e →
      processWorkLoop env cache pname pid (w :: rest) dom fails reps
        = processWorkLoop env cache pname pid rest dom
            (fails ++ [msgPkgDomParse w.packageIdNumbers e]) reps) ∧
    (∃ saved fs fails evs,
      processPlacesAndSave env pd cache = (.ok saved, fs, fails, evs) ∧
      saved.map (fun s => s.id) = pd.map (fun p => p.id) ∧
      (publishSavedPlaces env u saved).1.length = saved.length) := by
  refine ⟨?_, ?_, ?_⟩
  · intro pname pid dom fails reps w rest hmiss
    have h1 : processWork env cache pname pid dom fails reps w =
        .ok (dom, fails ++ [msgNoFetchedAsset w.packageIdNumbers pname pid], reps) := by
      unfold processWork
      rw [hmiss]
    simp only [processWorkLoop]
    rw [h1]
  · intro pname pid dom fails reps w rest bytes e hhit hdec
    have h1 : processWork env cache pname pid dom fails reps w =
        .ok (dom, fails ++ [msgPkgDomParse w.packageIdNumbers e], reps) := by
      simp only [processWork, hhit, hdec]
    simp only [processWorkLoop]
    rw [h1]
  · obtain ⟨saved, fs, fails, evs, hok⟩ :=
      processPlacesLoop_total env cache hencode hwrite pd [] [] [] [] hnopanic
    obtain ⟨c1, _, _⟩ :=
      processPlacesAndSave_shape env cache pd saved fs fails evs hok hnd
    exact ⟨saved, fs, fails, evs, hok, c1, (publishSavedPlaces_parts env u saved).1⟩

theorem c4_per_item_failures_isolated_witness :
    (([placeMissingPkg].map (fun p => p.id)).Nodup) ∧
    (∀ p ∈ [placeMissingPkg], ∀ fails0 reps0, ∃ trip,
      processWorkLoop envOffline [] p.name p.id p.toWork p.dom fails0 reps0
        = .ok trip) ∧
    ((∀ pname pid dom fails reps w rest,
      assocLookup ([] : List (String × Bytes)) (ToWork.packageIdNumbers w) = none →
      processWorkLoop envOffline [] pname pid (w :: rest) dom fails reps
        = processWorkLoop envOffline [] pname pid rest dom
            (fails ++ [msgNoFetchedAsset w.packageIdNumbers pname pid]) reps) ∧
    (∀ pname pid dom fails reps w rest bytes e,
      assocLookup ([] : List (String × Bytes)) (ToWork.packageIdNumbers w)
        = some bytes →
      envOffline.decodeDom bytes = .error e →
      processWorkLoop envOffline [] pname pid (w :: rest) dom fails reps
        = processWorkLoop envOffline [] pname pid rest dom
            (fails ++ [msgPkgDomParse w.packageIdNumbers e]) reps) ∧
    (∃ saved fs fails evs,
      processPlacesAndSave envOffline [placeMissingPkg] [] =
        (.ok saved, fs, fails, evs) ∧
      saved.map (fun s => s.id) = [placeMissingPkg].map (fun p => p.id) ∧
      (publishSavedPlaces envOffline 1 saved).1.length = saved.length)) := by
  have hno : ∀ p ∈ [placeMissingPkg], ∀ fails0 reps0, ∃ trip,
      processWorkLoop envOffline [] p.name p.id p.toWork p.dom fails0 reps0
        = .ok trip := by
    intro p hp fails0 reps0
    have hpeq : p = placeMissingPkg := by simpa using hp
    subst hpeq
    exact ⟨_, rfl⟩
  exact ⟨by decide, hno,
    c4_per_item_failures_isolated envOffline 1 [placeMissingPkg] [] (by decide)
      hno (fun _ => ⟨[], rfl⟩) (fun _ _ => rfl)⟩

/-! ## Claim C8 -/

/-- C8: in a run of the save-then-publish tail of `main`, every scene's
local file write happens before any publish attempt (the event trace is the
save-stage writes, one per scene in order, followed by the publish
attempts), and a failed publish neither removes nor modifies any written
file: the file store after the whole run is exactly the save stage's file
store, and every saved scene's payload is still present under its id. -/
theorem c8_write_before_publish
    (env : Env) (u : Nat) (pd : List PlaceData) (cache : List (String × Bytes))
    (saved : List SavedPlace) (pub : List (Except Nat Nat)) (fs : Fs)
    (fails : List String) (evs : List Ev)
    (hok : runSaveAndPublish env u pd cache = (.ok (saved, pub), fs, fails, evs))
    (hnd : (pd.map (fun p => p.id)).Nodup) :
    evs = pd.map (fun p => Ev.fileWrite p.id) ++
      saved.map (fun s => Ev.publishAttempt s.id (publishOk env u s)) ∧
    (∀ e ∈ evs.take pd.length, ∃ a, e = Ev.fileWrite a) ∧
    (∀ e ∈ evs.drop pd.length, ∃ a b, e = Ev.publishAttempt a b) ∧
    (∀ s ∈ saved, assocLookup fs s.id = some s.buffer) ∧
    fs = (processPlacesAndSave env pd cache).2.1 := by
  rcases hps : processPlacesAndSave env pd cache with ⟨res, fs0, fails0, evs0⟩
  cases res with
  | error a =>
    simp only [runSaveAndPublish, hps] at hok
    simp at hok
  | ok saved0 =>
    simp only [runSaveAndPublish, hps, Prod.mk.injEq, Except.ok.injEq] at hok
    obtain ⟨⟨hsaved, hpub⟩, hfs, hfails, hevs⟩ := hok
    obtain ⟨c1, c2, c3⟩ :=
      processPlacesAndSave_shape env cache pd saved0 fs0 fails0 evs0 hps hnd
    have hevseq : evs = pd.map (fun p => Ev.fileWrite p.id) ++
        saved.map (fun s => Ev.publishAttempt s.id (publishOk env u s)) := by
      rw [← hevs, c2, ← hsaved, (publishSavedPlaces_parts env u saved0).2]
    refine ⟨hevseq, ?_, ?_, ?_, ?_⟩
    · intro e he
      rw [hevseq] at he
      have hlen : (pd.map (fun p => Ev.fileWrite p.id)).length = pd.length :=
        List.length_map _ _
      rw [List.take_left' hlen] at he
      rcases List.mem_map.mp he with ⟨p, _, rfl⟩
      exact ⟨p.id, rfl⟩
    · intro e he
      rw [hevseq] at he
      have hlen : (pd.map (fun p => Ev.fileWrite p.id)).length = pd.length :=
        List.length_map _ _
      rw [List.drop_left' hlen] at he
      rcases List.mem_map.mp he with ⟨s, _, rfl⟩
      exact ⟨s.id, publishOk env u s, rfl⟩
    · intro s hs
      rw [← hsaved] at hs
      rw [← hfs]
      exact c3 s hs
    · rw [← hfs]

theorem c8_write_before_publish_witness :
    runSaveAndPublish envOffline 1 [placeNoLinks] [] =
      (.ok ([⟨7, "Plain", []⟩], [.error 7]), [(7, [])],
        [msgPublishErr "Plain" 7 "offline"],
        [Ev.fileWrite 7, Ev.publishAttempt 7 false]) ∧
    (([placeNoLinks].map (fun p => p.id)).Nodup) ∧
    ([Ev.fileWrite 7, Ev.publishAttempt 7 false]
        = [placeNoLinks].map (fun p => Ev.fileWrite p.id) ++
          ([⟨7, "Plain", []⟩] : List SavedPlace).map
            (fun s => Ev.publishAttempt s.id (publishOk envOffline 1 s)) ∧
      (∀ e ∈ ([Ev.fileWrite 7, Ev.publishAttempt 7 false] : List Ev).take
          ([placeNoLinks].length), ∃ a, e = Ev.fileWrite a) ∧
      (∀ e ∈ ([Ev.fileWrite 7, Ev.publishAttempt 7 false] : List Ev).drop
          ([placeNoLinks].length), ∃ a b, e = Ev.publishAttempt a b) ∧
      (∀ s ∈ ([⟨7, "Plain", []⟩] : List SavedPlace),
        assocLookup ([(7, [])] : Fs) s.id = some s.buffer) ∧
      ([(7, [])] : Fs) = (processPlacesAndSave envOffline [placeNoLinks] []).2.1) :=
  ⟨rfl, by decide,
    c8_write_before_publish envOffline 1 [placeNoLinks] [] [⟨7, "Plain", []⟩]
      [.error 7] [(7, [])] [msgPublishErr "Plain" 7 "offline"]
      [Ev.fileWrite 7, Ev.publishAttempt 7 false] rfl (by decide)⟩

/-! ## Claim C6 -/

/-- Whether a listed place survives all fetch/decode steps of the Scene
Collector (metadata lookup and parse, `"source"` CDN resolution, CDN fetch,
decompression, binary decode). -/
def placeFetchOk (env : Env) (pl : Place) : Bool :=
  match env.assetMeta (toString pl.id) with
  | .error _ => false
  | .ok meta =>
    match findCdn meta.locations with
    | none => false
    | some cdn =>
      match env.getCdn cdn with
      | .error _ => false
      | .ok resp =>
        match decompressIfNeeded env resp with
        | .error _ => false
        | .ok bytes =>
          match env.decodeDom bytes with
          | .ok _ => true
          | .error _ => false

lemma collectOnePlace_spec (env : Env) (pl : Place) :
    (placeFetchOk env pl = false → ∃ m, collectOnePlace env pl = .ok (none, [m])) ∧
    (∀ pd f, collectOnePlace env pl = .ok (some pd, f) →
      pd.id = pl.id ∧ pd.name = pl.name ∧ placeFetchOk env pl = true) ∧
    (∀ f, collectOnePlace env pl = .ok (none, f) → placeFetchOk env pl = false) := by
  cases hma : env.assetMeta (toString pl.id) with
  | error ge =>
    cases ge with
    | send e =>
      exact ⟨fun _ => ⟨msgPlaceMetaSend pl.name pl.id e,
          by simp [collectOnePlace, hma]⟩,
        fun pd f h => by simp [collectOnePlace, hma] at h,
        fun f h => by simp [placeFetchOk, hma]⟩
    | parse e =>
      exact ⟨fun _ => ⟨msgPlaceMetaParse pl.name pl.id e,
          by simp [collectOnePlace, hma]⟩,
        fun pd f h => by simp [collectOnePlace, hma] at h,
        fun f h => by simp [placeFetchOk, hma]⟩
  | ok meta =>
    cases hcdn : findCdn meta.locations with
    | none =>
      exact ⟨fun _ => ⟨msgPlaceNoCdn pl.name pl.id,
          by simp [collectOnePlace, hma, hcdn]⟩,
        fun pd f h => by simp [collectOnePlace, hma, hcdn] at h,
        fun f h => by simp [placeFetchOk, hma, hcdn]⟩
    | some cdn =>
      cases hget : env.getCdn cdn with
      | error e =>
        exact ⟨fun _ => ⟨msgPlaceCdnGet cdn pl.name pl.id e,
            by simp [collectOnePlace, hma, hcdn, hget]⟩,
          fun pd f h => by simp [collectOnePlace, hma, hcdn, hget] at h,
          fun f h => by simp [placeFetchOk, hma, hcdn, hget]⟩
      | ok resp =>
        cases hdec : decompressIfNeeded env resp with
        | error e =>
          exact ⟨fun _ => ⟨msgPlaceDecompress pl.name pl.id e,
              by simp [collectOnePlace, hma, hcdn, hget, hdec]⟩,
            fun pd f h => by simp [collectOnePlace, hma, hcdn, hget, hdec] at h,
            fun f h => by simp [placeFetchOk, hma, hcdn, hget, hdec]⟩
        | ok bytes =>
          cases hdd : env.decodeDom bytes with
          | error e =>
            exact ⟨fun _ => ⟨msgPlaceDecode pl.name pl.id e,
                by simp [collectOnePlace, hma, hcdn, hget, hdec, hdd]⟩,
              fun pd f h =>
                by simp [collectOnePlace, hma, hcdn, hget, hdec, hdd] at h,
              fun f h => by simp [placeFetchOk, hma, hcdn, hget, hdec, hdd]⟩
          | ok dom =>
            refine ⟨fun hfo => absurd hfo
                (by simp [placeFetchOk, hma, hcdn, hget, hdec, hdd]), ?_, ?_⟩
            · intro pd f h
              simp only [collectOnePlace, hma, hcdn, hget, hdec, hdd] at h
              cases hscan : scanLoop dom pl.name pl.id dom.descendantRefs ([], []) with
              | error e => simp [hscan] at h
              | ok pr =>
                obtain ⟨ws, fs2⟩ := pr
                simp only [hscan, Except.ok.injEq, Prod.mk.injEq,
                  Option.some.injEq] at h
                obtain ⟨hpd, -⟩ := h
                refine ⟨?_, ?_, by simp [placeFetchOk, hma, hcdn, hget, hdec, hdd]⟩
                · rw [← hpd]
                · rw [← hpd]
            · intro f h
              simp only [collectOnePlace, hma, hcdn, hget, hdec, hdd] at h
              cases hscan : scanLoop dom pl.name pl.id dom.descendantRefs ([], []) with
              | error e => simp [hscan] at h
              | ok pr => simp [hscan] at h

lemma collectLoop_shape (env : Env) :
    ∀ (places : List Place) (pds0 : List PlaceData) (fails0 : List String)
      (pds : List PlaceData) (fails : List String),
      collectLoop env places (pds0, fails0) = .ok (pds, fails) →
      pds.map (fun pd => (pd.id, pd.name))
        = pds0.map (fun pd => (pd.id, pd.name))
          ++ (places.filter (placeFetchOk env)).map (fun pl => (pl.id, pl.name)) := by
  intro places
  induction places with
  | nil =>
    intro pds0 fails0 pds fails h
    simp only [collectLoop, Except.ok.injEq, Prod.mk.injEq] at h
    obtain ⟨h1, -⟩ := h
    rw [← h1]
    simp
  | cons pl rest ih =>
    intro pds0 fails0 pds fails h
    simp only [collectLoop] at h
    cases hcp : collectOnePlace env pl with
    | error e => simp only [hcp] at h; simp at h
    | ok pair =>
      obtain ⟨opd, f⟩ := pair
      simp only [hcp] at h
      cases opd with
      | none =>
        have hfalse : placeFetchOk env pl = false :=
          (collectOnePlace_spec env pl).2.2 f hcp
        rw [show (pl :: rest).filter (placeFetchOk env)
            = rest.filter (placeFetchOk env) from by
          simp [List.filter_cons, hfalse]]
        exact ih _ _ _ _ h
      | some pd =>
        obtain ⟨hid, hname, htrue⟩ := (collectOnePlace_spec env pl).2.1 pd f hcp
        rw [ih _ _ _ _ h]
        rw [show (pl :: rest).filter (placeFetchOk env)
            = pl :: rest.filter (placeFetchOk env) from by
          simp [List.filter_cons, htrue]]
        simp [hid, hname]

/-- C6 (amended): the Scene Collector enumerates exactly the scenes of the
single listing page the code requests (`limit=100`, `nextPageCursor` never
followed) — and for that page its output contains a Scene Record (with the
scene's id and name) for exactly the successfully decoded scenes, in
enumeration order; every scene that fails metadata lookup, CDN resolution,
fetch, decompression, or decode is skipped with exactly one Failure Record
and contributes no Scene Record and no Work Item. -/
theorem c6_collector_page_contract
    (env : Env) (universeId : Nat) (resp : UniversePlacesResponse)
    (pds : List PlaceData) (fails : List String)
    (hresp : env.universePlaces universeId = .ok resp)
    (hok : collectPlacesAndPackageIds env universeId = .ok (pds, fails)) :
    pds.map (fun pd => (pd.id, pd.name))
      = (resp.data.filter (placeFetchOk env)).map (fun pl => (pl.id, pl.name)) ∧
    (∀ pl, placeFetchOk env pl = false →
      ∃ m, collectOnePlace env pl = .ok (none, [m])) := by
  refine ⟨?_, fun pl => (collectOnePlace_spec env pl).1⟩
  have hloop : collectLoop env resp.data ([], []) = .ok (pds, fails) := by
    rw [← hok]
    simp [collectPlacesAndPackageIds, hresp]
  simpa using collectLoop_shape env resp.data [] [] pds fails hloop

/-- A collection of 101 scenes, all of which fetch and decode successfully. -/
def scenes101 : List Place := (List.range 101).map (fun i => ⟨i, 1, "P", ""⟩)

/-- Environment in which every asset resolves and decodes (to a DOM without
package links), and the listing endpoint is the spec's paginated endpoint
over `scenes101`. -/
def env101 : Env :=
  { envOffline with
    universePlaces := fun _ => .ok (listingPage scenes101 placesListLimit)
    assetMeta := fun _ => .ok ⟨[⟨"source", "cdn", []⟩], "r", false, 0, false⟩
    getCdn := fun _ => .ok ⟨false, .ok [0]⟩
    decodeDom := fun _ => .ok ⟨1, [(1, ⟨"DataModel", [], 0, []⟩)]⟩ }

/-- C6 counterexample to the claim as stated: against a 101-scene collection
(modelled from the spec's paginated listing endpoint) in which every scene
would decode successfully, the Scene Collector produces only 100 Scene
Records — it does not enumerate every scene in the collection, because it
requests a single page of at most 100 and never follows `nextPageCursor`. -/
theorem c6_counterexample_pagination :
    (collectPlacesAndPackageIds env101 1).map (fun x => x.1.length) = .ok 100 ∧
    scenes101.length = 101 ∧
    (listingPage scenes101 placesListLimit).nextPageCursor = some "cursor" := by
  refine ⟨?_, by decide, by decide⟩
  rfl

/-- Two-scene listing for the C6 witness: scene 1 resolves, scene 2's
metadata request fails. -/
def envC6 : Env :=
  { envOffline with
    universePlaces := fun _ => .ok ⟨none, none, [⟨1, 1, "A", ""⟩, ⟨2, 1, "B", ""⟩]⟩
    assetMeta := fun pid =>
      if pid = "1" then .ok ⟨[⟨"source", "cdn", []⟩], "r", false, 0, false⟩
      else .error (.send "404")
    getCdn := fun _ => .ok ⟨false, .ok [0]⟩
    decodeDom := fun _ => .ok ⟨1, [(1, ⟨"DataModel", [], 0, []⟩)]⟩ }

theorem c6_collector_page_contract_witness :
    envC6.universePlaces 1 = .ok ⟨none, none, [⟨1, 1, "A", ""⟩, ⟨2, 1, "B", ""⟩]⟩ ∧
    collectPlacesAndPackageIds envC6 1 =
      .ok ([⟨1, "A", ⟨1, [(1, ⟨"DataModel", [], 0, []⟩)]⟩, []⟩],
        [msgPlaceMetaSend "B" 2 "404"]) ∧
    ([(⟨1, "A", ⟨1, [(1, ⟨"DataModel", [], 0, []⟩)]⟩, []⟩ : PlaceData)].map
        (fun pd => (pd.id, pd.name))
      = (([⟨1, 1, "A", ""⟩, ⟨2, 1, "B", ""⟩] : List Place).filter
          (placeFetchOk envC6)).map (fun pl => (pl.id, pl.name))) :=
  ⟨rfl, rfl,
    (c6_collector_page_contract envC6 1 ⟨none, none, [⟨1, 1, "A", ""⟩, ⟨2, 1, "B", ""⟩]⟩
      [⟨1, "A", ⟨1, [(1, ⟨"DataModel", [], 0, []⟩)]⟩, []⟩]
      [msgPlaceMetaSend "B" 2 "404"] rfl rfl).1⟩

end RPU
